import Mathlib

/-!
Shallow embedding of the Fun.Run backend ledger engine
(`src/backend/server.js`: the revision holding `handleTrade`,
`handleWithdraw`, `POST /api/referral/set`, `POST /api/coin/create`,
`GET /api/profile/:wallet`, the normalizers `ensureCoin` and
`ensureProfile`, and the store helpers).

Modelling conventions:
* JS strings are `List Char`; `trim` and `toUpperCase` / `toLowerCase`
  are modelled characterwise (ASCII case mapping, `Char.toUpper`).
* JS numbers are `ℚ`; `Math.floor` is `Int.floor`, `Math.round` is
  `⌊x + 1/2⌋` (JS rounds half toward +∞).  `safeNum(x, d)` on a field
  that may be missing is `Option ℚ` with `Option.getD`.
* JS objects used as maps (`holders`, `profiles`, `referrals`,
  `byCoin`, `byWallet`) are association lists; property assignment
  replaces the entry for the key in place or appends a new one.
* Wall-clock time (`nowMs()`) and `crypto.randomUUID()` are explicit
  parameters.
* Each route handler is a pure function from the in-memory store (the
  file-mode cache returned by `readDB`) to the store as it stands when
  the handler returns, together with the response payload.  In file
  mode the handler mutates the shared cache in place, so an
  early-return error path keeps every mutation made before the return.
-/

namespace FunRun

/- The Batteries rational arithmetic definitions are `irreducible` by
default; re-expose them so that concrete engine runs can be settled by
`decide`. -/
unseal Rat.mul Rat.inv Rat.add Rat.sub Rat.ofScientific

abbrev Str := List Char

/-- Whitespace for `String.prototype.trim` (ASCII subset). -/
def isWS (c : Char) : Bool := c.toNat = 32 || c.toNat = 9 || c.toNat = 10 || c.toNat = 13

/-- JS `toUpperCase`, characterwise (ASCII). -/
def upperStr (s : Str) : Str := s.map Char.toUpper

/-- JS `toLowerCase`, characterwise (ASCII). -/
def lowerStr (s : Str) : Str := s.map Char.toLower

/-- JS `trim`: drop whitespace from both ends. -/
def trimStr (s : Str) : Str := (s.dropWhile isWS).rdropWhile isWS

/-- JS `a || b` on strings (the empty string is falsy). -/
def strOrS (a b : Str) : Str := if a = [] then b else a

/-- JS `o?.f || d` where the field may be absent. -/
def strOrO (o : Option Str) (d : Str) : Str :=
  match o with
  | some s => strOrS s d
  | none => d

/-- JS `x || d` on numbers (`0` is falsy). -/
def numOr (x d : ℚ) : ℚ := if x = 0 then d else x

/-- `Math.floor` as a map `ℚ → ℚ`. -/
def mfloor (x : ℚ) : ℚ := ((⌊x⌋ : ℤ) : ℚ)

/-- `Math.round` (half toward `+∞`) as a map `ℚ → ℚ`. -/
def mround (x : ℚ) : ℚ := ((⌊x + 1/2⌋ : ℤ) : ℚ)

/-- `clampPct` from the source: clamp a percentage into `[0, 100]`. -/
def clampPct (n : ℚ) : ℚ := max 0 (min 100 n)

/-- `pctToFrac` from the source. -/
def pctToFrac (p : ℚ) : ℚ := clampPct p / 100

/-! ### Association lists (JS objects used as maps) -/

/-- Read `m[k]` (JS property access, `undefined` = `none`). -/
def lookupA {α : Type} (m : List (Str × α)) (k : Str) : Option α :=
  match m with
  | [] => none
  | kv :: rest => if kv.1 = k then some kv.2 else lookupA rest k

/-- Read `m[k] || 0` / `safeNum(m[k], 0)`. -/
def getA (m : List (Str × ℚ)) (k : Str) : ℚ := (lookupA m k).getD 0

/-- Write `m[k] = v` (JS property assignment: replace in place or append). -/
def upsertA {α : Type} (m : List (Str × α)) (k : Str) (v : α) : List (Str × α) :=
  match m with
  | [] => [(k, v)]
  | kv :: rest => if kv.1 = k then (k, v) :: rest else kv :: upsertA rest k v

/-- Sum of all values stored in a JS object used as a numeric map. -/
def sumVals (m : List (Str × ℚ)) : ℚ := (m.map (fun kv => kv.2)).sum

/-- Mutate the first list element satisfying `q` in place (JS
`arr.find(...)` followed by field assignments on the result). -/
def replaceFirst {α : Type} (q : α → Bool) (f : α → α) : List α → List α
  | [] => []
  | x :: xs => if q x then f x :: xs else x :: replaceFirst q f xs

/-- JS `arr.slice(-n)`: the last `n` elements. -/
def takeLast {α : Type} (n : Nat) (l : List α) : List α := l.drop (l.length - n)

/-- Truthiness of an optional JS string (absent and `""` are falsy). -/
def truthyS (o : Option Str) : Bool :=
  match o with
  | some s => !s.isEmpty
  | none => false

/-! ### Configuration constants (source defaults, no env overrides) -/

def STARTING_MC_USD : ℚ := 6500
def TOTAL_SUPPLY_DEFAULT : ℚ := 1000000000
def CREATOR_PERCENT : ℚ := 2
def FEE_PCT : ℚ := 1
def TRADE_DEV_PCT : ℚ := 40
def TRADE_CREATOR_PCT : ℚ := 40
def TRADE_REF_PCT : ℚ := 10
def TRADE_RESERVE_PCT : ℚ := 10
def CREATE_DEV_PCT : ℚ := 70
def CREATE_REF_PCT : ℚ := 20
def CREATE_RESERVE_PCT : ℚ := 10

/-- `const OWNER_MAX_PERCENT = Number(process.env.OWNER_MAX_PERCENT || 20)`
(`// Owner cap`).  Declared in the source configuration block and never
consulted by any route handler. -/
def OWNER_MAX_PERCENT : ℚ := 20

def DEV_WALLET : Str := "DEV_TREASURY".toList
def RESERVE_WALLET : Str := "RESERVE_TREASURY".toList

/-! ### String constants -/

def liveS : Str := "LIVE".toList
def draftS : Str := "DRAFT".toList
def buyS : Str := "buy".toList
def sellS : Str := "sell".toList
def buyTxS : Str := "BUY".toList
def sellTxS : Str := "SELL".toList
def createTxS : Str := "CREATE".toList
def withdrawTxS : Str := "WITHDRAW".toList
def creatorKindS : Str := "CREATOR".toList
def refKindS : Str := "REF".toList
def manualKindS : Str := "MANUAL".toList

def errTradeRequired : Str := "wallet/coinId/side/sol required".toList
def errTradeSide : Str := "side must be buy or sell".toList
def errCoinNotFound : Str := "Coin not found".toList
def errCoinNotLive : Str := "Coin not LIVE".toList
def errNoTokens : Str := "No tokens to sell".toList
def errWalletRequired : Str := "wallet required".toList
def errReferrerInvalid : Str := "referrer invalid".toList
def errSelfReferral : Str := "self referral not allowed".toList
def errImmutable : Str := "immutable: referral already set".toList
def errToRequired : Str := "to required".toList
def errCreateRequired : Str := "name/symbol/creatorWallet required".toList

/-! ### Data model -/

/-- `profile.rewards` — creator-reward bucket. -/
structure Rewards where
  totalSol : ℚ
  byCoin : List (Str × ℚ)
deriving DecidableEq, Repr

/-- `profile.referralRewards` — referral-reward bucket. -/
structure RefRewards where
  totalSol : ℚ
  byWallet : List (Str × ℚ)
deriving DecidableEq, Repr

/-- One entry of `profile.holdings`. -/
structure Holding where
  coinId : Str
  symbol : Str
  amount : ℚ
  lastAt : ℚ
deriving DecidableEq, Repr

/-- One entry of `profile.txs` (fields not set by a given tx shape are
absent). -/
structure Tx where
  id : Str
  t : ℚ
  coinId : Str
  side : Str
  sol : ℚ
  tokens : Option ℚ
  feeSol : Option ℚ
  toW : Option Str
  kind : Option Str
deriving DecidableEq, Repr

/-- One entry of `store.logs`; unused fields of a given event type stay
at their empty defaults. -/
structure LogEntry where
  t : ℚ
  type : Str
  wallet : Str
  coinId : Str
  referrer : Str
  side : Str
  toW : Str
  kind : Str
  status : Str
  sol : ℚ
  tokens : ℚ
  feeSol : ℚ
  initialSol : ℚ
  split : List (Str × ℚ)
  devWallet : Str
  reserveWallet : Str
deriving DecidableEq, Repr

def emptyLog : LogEntry :=
  { t := 0, type := [], wallet := [], coinId := [], referrer := [], side := [],
    toW := [], kind := [], status := [], sol := 0, tokens := 0, feeSol := 0,
    initialSol := 0, split := [], devWallet := [], reserveWallet := [] }

/-- `store.treasury`. -/
structure Treasury where
  devSol : ℚ
  reserveSol : ℚ
  updatedAt : ℚ
deriving DecidableEq, Repr

/-- A normalized coin (the shape produced by `ensureCoin`). -/
structure Coin where
  id : Str
  name : Str
  symbol : Str
  story : Str
  logo : Str
  creatorWallet : Str
  owner : Str
  createdAt : ℚ
  status : Str
  mc : ℚ
  ath : ℚ
  chart : List ℚ
  volumeSol : ℚ
  creatorRewardsSol : ℚ
  totalSupply : ℚ
  holders : List (Str × ℚ)
  lastTradeAt : ℚ
deriving DecidableEq, Repr

/-- A normalized profile (the shape produced by `ensureProfile`). -/
structure Profile where
  wallet : Str
  holdings : List Holding
  txs : List Tx
  rewards : Rewards
  referralRewards : RefRewards
  referrer : Str
  updatedAt : ℚ
deriving DecidableEq, Repr

/-- A possibly partially-formed coin record, as read from a persisted
snapshot or built from a request body; `none` models an absent (or
non-finite numeric / non-array) field. -/
structure RawCoin where
  id : Option Str
  name : Option Str
  symbol : Option Str
  story : Option Str
  logo : Option Str
  creatorWallet : Option Str
  owner : Option Str
  createdAt : Option ℚ
  status : Option Str
  mc : Option ℚ
  ath : Option ℚ
  chart : Option (List ℚ)
  volumeSol : Option ℚ
  creatorRewardsSol : Option ℚ
  totalSupply : Option ℚ
  holders : Option (List (Str × ℚ))
  lastTradeAt : Option ℚ
deriving DecidableEq, Repr

/-- A possibly partially-formed profile record. -/
structure RawProfile where
  wallet : Option Str
  holdings : Option (List Holding)
  txs : Option (List Tx)
  rewards : Option Rewards
  referralRewards : Option RefRewards
  referrer : Option Str
deriving DecidableEq, Repr

/-- View a normalized coin as an input record (every field present). -/
def coinToRaw (c : Coin) : RawCoin :=
  { id := some c.id, name := some c.name, symbol := some c.symbol,
    story := some c.story, logo := some c.logo,
    creatorWallet := some c.creatorWallet, owner := some c.owner,
    createdAt := some c.createdAt, status := some c.status, mc := some c.mc,
    ath := some c.ath, chart := some c.chart, volumeSol := some c.volumeSol,
    creatorRewardsSol := some c.creatorRewardsSol,
    totalSupply := some c.totalSupply, holders := some c.holders,
    lastTradeAt := some c.lastTradeAt }

/-- View a normalized profile as an input record. -/
def profileToRaw (p : Profile) : RawProfile :=
  { wallet := some p.wallet, holdings := some p.holdings, txs := some p.txs,
    rewards := some p.rewards, referralRewards := some p.referralRewards,
    referrer := some p.referrer }

/-- `store` — the aggregate snapshot. -/
structure Store where
  coins : List Coin
  profiles : List (Str × Profile)
  referrals : List (Str × Str)
  treasury : Treasury
  logs : List LogEntry
deriving DecidableEq, Repr

def defaultStore (now : ℚ) : Store :=
  { coins := [], profiles := [], referrals := [],
    treasury := { devSol := 0, reserveSol := 0, updatedAt := now }, logs := [] }

/-! ### Normalizers and store helpers -/

/-- `ensureCoin` (source lines 578–605). -/
def ensureCoin (c : RawCoin) (now : ℚ) (uid : Str) : Coin :=
  let createdAt := c.createdAt.getD now
  let status := strOrO c.status draftS
  let mc := c.mc.getD (if status = liveS then STARTING_MC_USD else 0)
  let ath := c.ath.getD (numOr mc STARTING_MC_USD)
  let chart :=
    match c.chart with
    | some l => if l = [] then [mc, mc, mc, mc, mc] else l
    | none => [mc, mc, mc, mc, mc]
  { id := strOrO c.id uid
    name := trimStr (strOrO c.name [])
    symbol := upperStr (trimStr (strOrO c.symbol []))
    story := trimStr (strOrO c.story [])
    logo := strOrO c.logo []
    creatorWallet := strOrO c.creatorWallet (strOrO c.owner [])
    owner := strOrO c.owner (strOrO c.creatorWallet [])
    createdAt := createdAt
    status := status
    mc := mc
    ath := ath
    chart := chart
    volumeSol := c.volumeSol.getD 0
    creatorRewardsSol := c.creatorRewardsSol.getD 0
    totalSupply := c.totalSupply.getD TOTAL_SUPPLY_DEFAULT
    holders := c.holders.getD []
    lastTradeAt := c.lastTradeAt.getD 0 }

/-- `ensureProfile` (source lines 607–625). -/
def ensureProfile (p : Option RawProfile) (wallet : Str) (now : ℚ) : Profile :=
  { wallet := trimStr (strOrS wallet (strOrO (p.bind RawProfile.wallet) []))
    holdings := (p.bind RawProfile.holdings).getD []
    txs := (p.bind RawProfile.txs).getD []
    rewards := (p.bind RawProfile.rewards).getD { totalSol := 0, byCoin := [] }
    referralRewards :=
      (p.bind RawProfile.referralRewards).getD { totalSol := 0, byWallet := [] }
    referrer := strOrO (p.bind RawProfile.referrer) []
    updatedAt := now }

/-- `ensureProfile` applied to an entry of `store.profiles` (handlers
always store normalized profiles back, so stored entries have the
`Profile` shape). -/
def ensureProfileS (p : Option Profile) (wallet : Str) (now : ℚ) : Profile :=
  ensureProfile (p.map profileToRaw) wallet now

/-- `logPush` (source lines 627–631): prepend, cap at 300. -/
def logPush (st : Store) (item : LogEntry) (now : ℚ) : Store :=
  { st with logs := ({ item with t := now } :: st.logs).take 300 }

/-- `ensureTreasury` (source lines 643–648). -/
def ensureTreasury (st : Store) (now : ℚ) : Store :=
  { st with treasury :=
      { devSol := st.treasury.devSol, reserveSol := st.treasury.reserveSol,
        updatedAt := now } }

/-- `findCoin` (source lines 688–691). -/
def findCoin (st : Store) (coinId : Str) : Option Coin :=
  let id := trimStr coinId
  st.coins.find? (fun x => x.id = id)

/-- `normalizeStore` restricted to typed stores: re-normalizes every
coin; profiles, referrals, treasury and logs pass the shape checks
unchanged.  `writeDB` in file mode stores `normalizeStore(store)` as
the new cache / durable snapshot. -/
def normalizeStore (st : Store) (now : ℚ) (uid : Str) : Store :=
  { st with coins := st.coins.map (fun c => ensureCoin (coinToRaw c) now uid) }

/-! ### Ledger engine helpers -/

/-- `takeFee` (source lines 682–686): returns `(feeSol, netSol)`. -/
def takeFee (solAmount : ℚ) : ℚ × ℚ :=
  let fee := solAmount * pctToFrac FEE_PCT
  (fee, max 0 (solAmount - fee))

/-- `creditCreatorReward` (source lines 650–662).  Returns the updated
store and the coin with its bumped `creatorRewardsSol` (the source
mutates the coin object in place). -/
def creditCreatorReward (st : Store) (coin : Coin) (amountSol : ℚ) (now : ℚ) :
    Store × Coin :=
  let creator := trimStr (strOrS coin.creatorWallet coin.owner)
  if creator = [] ∨ amountSol ≤ 0 then (st, coin)
  else
    let p := ensureProfileS (lookupA st.profiles creator) creator now
    let p :=
      { p with
        rewards :=
          { totalSol := p.rewards.totalSol + amountSol,
            byCoin := upsertA p.rewards.byCoin coin.id
              (getA p.rewards.byCoin coin.id + amountSol) }
        updatedAt := now }
    ({ st with profiles := upsertA st.profiles creator p },
     { coin with creatorRewardsSol := coin.creatorRewardsSol + amountSol })

/-- `creditReferralReward` (source lines 664–680). -/
def creditReferralReward (st : Store) (traderWallet : Str) (amountSol : ℚ)
    (now : ℚ) : Store :=
  let w := trimStr traderWallet
  if w = [] ∨ amountSol ≤ 0 then st
  else
    let ref := trimStr (strOrO (lookupA st.referrals w) [])
    if ref = [] ∨ ref.length < 20 then st
    else
      let rp := ensureProfileS (lookupA st.profiles ref) ref now
      let rp :=
        { rp with
          referralRewards :=
            { totalSol := rp.referralRewards.totalSol + amountSol,
              byWallet := upsertA rp.referralRewards.byWallet w
                (getA rp.referralRewards.byWallet w + amountSol) }
          updatedAt := now }
      { st with profiles := upsertA st.profiles ref rp }

/-! ### Route handlers -/

/-- `POST /api/referral/set` (source lines 852–883). -/
def setReferral (st : Store) (wallet0 referrer0 : Str) (now : ℚ) :
    Store × Except Str Unit :=
  let wallet := trimStr wallet0
  let referrer := trimStr referrer0
  if wallet = [] ∨ wallet.length < 20 then (st, Except.error errWalletRequired)
  else if referrer = [] ∨ referrer.length < 20 then
    (st, Except.error errReferrerInvalid)
  else if wallet = referrer then (st, Except.error errSelfReferral)
  else if truthyS (lookupA st.referrals wallet) then
    (st, Except.error errImmutable)
  else
    let st := { st with referrals := upsertA st.referrals wallet referrer }
    let p := ensureProfileS (lookupA st.profiles wallet) wallet now
    let p := { p with referrer := referrer, updatedAt := now }
    let st := { st with profiles := upsertA st.profiles wallet p }
    let st :=
      logPush st
        { emptyLog with
          type := "referral_set".toList
          wallet := wallet
          referrer := referrer } now
    (st, Except.ok ())

/-- `POST /api/coin/create` (source lines 886–977). -/
def createCoin (st : Store) (name0 symbol0 story0 logo0 : Str)
    (initialSol : ℚ) (creatorWallet0 : Str) (now : ℚ) (coinUid txUid : Str) :
    Store × Except Str Coin :=
  let name := trimStr name0
  let symbol := upperStr (trimStr symbol0)
  let story := trimStr story0
  let creatorWallet := trimStr creatorWallet0
  if name = [] ∨ symbol = [] ∨ creatorWallet = [] then
    (st, Except.error errCreateRequired)
  else
    let st := ensureTreasury st now
    let status := if initialSol ≥ 1 / 100 then liveS else draftS
    let feePass :=
      if status = liveS ∧ 0 < initialSol then
        let createFeeSol := (takeFee initialSol).1
        let dev := createFeeSol * pctToFrac CREATE_DEV_PCT
        let refAmt := createFeeSol * pctToFrac CREATE_REF_PCT
        let reserve := createFeeSol * pctToFrac CREATE_RESERVE_PCT
        let st :=
          { st with treasury :=
              { st.treasury with
                devSol := st.treasury.devSol + dev
                reserveSol := st.treasury.reserveSol + reserve } }
        let st := creditReferralReward st creatorWallet refAmt now
        let st :=
          logPush st
            { emptyLog with
              type := "create_fee".toList
              wallet := creatorWallet
              feeSol := createFeeSol
              split := [("dev".toList, dev), ("ref".toList, refAmt),
                ("reserve".toList, reserve)]
              devWallet := DEV_WALLET
              reserveWallet := RESERVE_WALLET } now
        (st, createFeeSol)
      else (st, 0)
    let st := feePass.1
    let createFeeSol := feePass.2
    let coin :=
      ensureCoin
        { id := some coinUid, name := some name, symbol := some symbol,
          story := some story, logo := some logo0,
          creatorWallet := some creatorWallet, owner := some creatorWallet,
          createdAt := some now, status := some status,
          mc := some (if status = liveS then STARTING_MC_USD else 0),
          ath := some (if status = liveS then STARTING_MC_USD else 0),
          chart := some
            (if status = liveS then List.replicate 5 STARTING_MC_USD
             else List.replicate 5 0),
          volumeSol := some (if status = liveS then initialSol else 0),
          creatorRewardsSol := none,
          totalSupply := some TOTAL_SUPPLY_DEFAULT, holders := some [],
          lastTradeAt := none } now coinUid
    let creatorTokens := mfloor (coin.totalSupply * CREATOR_PERCENT / 100)
    let newHolders :=
      upsertA coin.holders creatorWallet
        (getA coin.holders creatorWallet + creatorTokens)
    let coin := { coin with holders := newHolders }
    let st := { st with coins := coin :: st.coins }
    let p := ensureProfileS (lookupA st.profiles creatorWallet) creatorWallet now
    let newHoldings :=
      match p.holdings.find? (fun h => h.coinId = coin.id) with
      | some _ =>
        replaceFirst (fun h => h.coinId = coin.id)
          (fun h => { h with amount := numOr h.amount 0 + creatorTokens })
          p.holdings
      | none =>
        { coinId := coin.id, symbol := coin.symbol,
          amount := creatorTokens, lastAt := now : Holding } :: p.holdings
    let p := { p with holdings := newHoldings }
    let p :=
      { p with txs :=
          { id := txUid, t := now, coinId := coin.id, side := createTxS,
            sol := initialSol, tokens := none, feeSol := some createFeeSol,
            toW := none, kind := none } :: p.txs }
    let st := { st with profiles := upsertA st.profiles creatorWallet p }
    let st :=
      logPush st
        { emptyLog with
          type := "coin_create".toList
          coinId := coin.id
          wallet := creatorWallet
          status := status
          initialSol := initialSol } now
    (st, Except.ok coin)

/-- The trade fee split (source lines 1003–1008). -/
structure FeeSplit where
  feeSol : ℚ
  dev : ℚ
  creator : ℚ
  ref : ℚ
  reserve : ℚ
deriving DecidableEq, Repr

def feeSplit (sol : ℚ) : FeeSplit :=
  let feeSol := (takeFee sol).1
  { feeSol := feeSol
    dev := feeSol * pctToFrac TRADE_DEV_PCT
    creator := feeSol * pctToFrac TRADE_CREATOR_PCT
    ref := feeSol * pctToFrac TRADE_REF_PCT
    reserve := feeSol * pctToFrac TRADE_RESERVE_PCT }

/-- The trade pricing rule (source lines 1016–1018):
`mc = Math.max(coin.mc || STARTING_MC_USD, 1000)`,
`tokensPerSol = Math.max(1, Math.floor(coin.totalSupply / mc))`,
`tokens = Math.max(1, Math.floor(sol * tokensPerSol))`. -/
def tokensFor (coin : Coin) (sol : ℚ) : ℚ :=
  let mcEff := max (numOr coin.mc STARTING_MC_USD) 1000
  let tokensPerSol := max 1 (mfloor (coin.totalSupply / mcEff))
  max 1 (mfloor (sol * tokensPerSol))

/-- The fee-distribution phase of `handleTrade` (source lines
1010–1014), which runs before the buy/sell branch: credit the dev and
reserve treasuries, the coin creator and (if bound) the trader's
referrer.  Returns the store and the coin with its bumped
`creatorRewardsSol`, kept in sync inside `store.coins` (the source
mutates the coin object held by the array). -/
def tradePrepare (st : Store) (wallet : Str) (coin0 : Coin) (sol now : ℚ) :
    Store × Coin :=
  let fs := feeSplit sol
  let st :=
    { st with treasury :=
        { st.treasury with
          devSol := st.treasury.devSol + fs.dev
          reserveSol := st.treasury.reserveSol + fs.reserve } }
  let scPair := creditCreatorReward st coin0 fs.creator now
  let coin := scPair.2
  let syncedCoins :=
    replaceFirst (fun x => x.id = coin.id) (fun _ => coin) scPair.1.coins
  let st := { scPair.1 with coins := syncedCoins }
  let st := creditReferralReward st wallet fs.ref now
  (st, coin)

/-- The buy branch of `handleTrade` (source lines 1020–1050). -/
def tradeBuy (st : Store) (coin : Coin) (p : Profile) (wallet coinId : Str)
    (sol now : ℚ) (txUid : Str) : Store × Except Str (Coin × Profile) :=
  let fs := feeSplit sol
  let tokens := tokensFor coin sol
  let newHolders :=
    upsertA coin.holders wallet (getA coin.holders wallet + tokens)
  let coin := { coin with holders := newHolders }
  let newHoldings :=
    match p.holdings.find? (fun h => h.coinId = coinId) with
    | some _ =>
      replaceFirst (fun h => h.coinId = coinId)
        (fun h => { h with
          amount := h.amount + tokens
          lastAt := now }) p.holdings
    | none =>
      { coinId := coinId, symbol := coin.symbol, amount := tokens,
        lastAt := now : Holding } :: p.holdings
  let p := { p with holdings := newHoldings }
  let coin := { coin with volumeSol := coin.volumeSol + sol }
  let coin := { coin with mc := mround (max 1000 (coin.mc + sol * 120)) }
  let coin := { coin with ath := max (numOr coin.ath coin.mc) coin.mc }
  let coin := { coin with chart := takeLast 60 (coin.chart ++ [coin.mc]) }
  let p :=
    { p with txs :=
        { id := txUid, t := now, coinId := coinId, side := buyTxS,
          sol := sol, tokens := some tokens, feeSol := some fs.feeSol,
          toW := none, kind := none } :: p.txs }
  let st :=
    logPush st
      { emptyLog with
        type := "trade".toList
        side := buyTxS
        wallet := wallet
        coinId := coinId
        sol := sol
        tokens := tokens
        feeSol := fs.feeSol
        split := [("dev".toList, fs.dev), ("creator".toList, fs.creator),
          ("ref".toList, fs.ref), ("reserve".toList, fs.reserve)] } now
  let coin := { coin with lastTradeAt := now }
  let p := { p with updatedAt := now }
  let st :=
    { st with
      coins := replaceFirst (fun x => x.id = coin.id) (fun _ => coin)
        st.coins
      profiles := upsertA st.profiles wallet p }
  (st, Except.ok (coin, p))

/-- The sell branch of `handleTrade` (source lines 1051–1080),
including the insufficient-holding rejection (which happens after the
fee distribution of `tradePrepare` has already mutated the store). -/
def tradeSell (st : Store) (coin : Coin) (p : Profile) (wallet coinId : Str)
    (sol now : ℚ) (txUid : Str) : Store × Except Str (Coin × Profile) :=
  let fs := feeSplit sol
  let tokens := tokensFor coin sol
  let hOpt := p.holdings.find? (fun h => h.coinId = coinId)
  let haveAmt :=
    match hOpt with
    | some h => h.amount
    | none => 0
  if hOpt = none ∨ haveAmt ≤ 0 then (st, Except.error errNoTokens)
  else
    let sellTokens := min haveAmt tokens
    let newHoldings :=
      replaceFirst (fun h => h.coinId = coinId)
        (fun h => { h with
          amount := haveAmt - sellTokens
          lastAt := now }) p.holdings
    let p := { p with holdings := newHoldings }
    let newHolders :=
      upsertA coin.holders wallet
        (max 0 (getA coin.holders wallet - sellTokens))
    let coin := { coin with holders := newHolders }
    let coin := { coin with volumeSol := coin.volumeSol + sol }
    let coin := { coin with mc := mround (max 1000 (coin.mc - sol * 110)) }
    let coin := { coin with chart := takeLast 60 (coin.chart ++ [coin.mc]) }
    let p :=
      { p with txs :=
          { id := txUid, t := now, coinId := coinId, side := sellTxS,
            sol := sol, tokens := some sellTokens, feeSol := some fs.feeSol,
            toW := none, kind := none } :: p.txs }
    let st :=
      logPush st
        { emptyLog with
          type := "trade".toList
          side := sellTxS
          wallet := wallet
          coinId := coinId
          sol := sol
          tokens := sellTokens
          feeSol := fs.feeSol
          split := [("dev".toList, fs.dev), ("creator".toList, fs.creator),
            ("ref".toList, fs.ref), ("reserve".toList, fs.reserve)] } now
    let coin := { coin with lastTradeAt := now }
    let p := { p with updatedAt := now }
    let st :=
      { st with
        coins := replaceFirst (fun x => x.id = coin.id) (fun _ => coin)
          st.coins
        profiles := upsertA st.profiles wallet p }
    (st, Except.ok (coin, p))

/-- `handleTrade` (source lines 980–1093), shared by `POST
/api/coin/buy`, `POST /api/coin/sell` and `POST /api/trade`: input
validation, the coin-exists and coin-LIVE preconditions, the fee
distribution of `tradePrepare`, then the buy or sell branch.  The
response re-normalizes its copy of the coin; the pair returned here is
the coin and profile as stored. -/
def handleTrade (st : Store) (wallet0 coinId0 side0 : Str) (sol : ℚ)
    (now : ℚ) (txUid : Str) : Store × Except Str (Coin × Profile) :=
  let wallet := trimStr wallet0
  let coinId := trimStr coinId0
  let sideRaw := lowerStr (trimStr side0)
  if wallet = [] ∨ coinId = [] ∨ sideRaw = [] ∨ sol ≤ 0 then
    (st, Except.error errTradeRequired)
  else if sideRaw ≠ buyS ∧ sideRaw ≠ sellS then (st, Except.error errTradeSide)
  else
    let st := ensureTreasury st now
    match findCoin st coinId with
    | none => (st, Except.error errCoinNotFound)
    | some coin0 =>
      if coin0.status ≠ liveS then (st, Except.error errCoinNotLive)
      else
        let p := ensureProfileS (lookupA st.profiles wallet) wallet now
        let sc := tradePrepare st wallet coin0 sol now
        if sideRaw = buyS then tradeBuy sc.1 sc.2 p wallet coinId sol now txUid
        else tradeSell sc.1 sc.2 p wallet coinId sol now txUid

/-- `handleWithdraw` (source lines 1101–1137); `kindBody` is
`req.body.kind`, `mode` the route's forced kind (`"CREATOR"` for
`/api/withdraw/creator`, `"REF"` for `/api/withdraw/referral`,
`"MANUAL"` otherwise). -/
def handleWithdraw (st : Store) (wallet0 to0 kindBody mode : Str) (now : ℚ)
    (txUid : Str) : Store × Except Str ℚ :=
  let wallet := trimStr wallet0
  let toW := trimStr to0
  let kind := upperStr (trimStr (strOrS kindBody mode))
  if wallet = [] then (st, Except.error errWalletRequired)
  else if toW = [] then (st, Except.error errToRequired)
  else
    let p := ensureProfileS (lookupA st.profiles wallet) wallet now
    let withdrawn :=
      if kind = creatorKindS then p.rewards.totalSol
      else if kind = refKindS then p.referralRewards.totalSol
      else 0
    let p :=
      if kind = creatorKindS then { p with rewards := { totalSol := 0, byCoin := [] } }
      else if kind = refKindS then
        { p with referralRewards := { totalSol := 0, byWallet := [] } }
      else p
    let p :=
      { p with
        txs :=
          { id := txUid, t := now, coinId := [], side := withdrawTxS,
            sol := withdrawn, tokens := none, feeSol := none,
            toW := some toW, kind := some kind } :: p.txs
        updatedAt := now }
    let st := { st with profiles := upsertA st.profiles wallet p }
    let st :=
      logPush st
        { emptyLog with
          type := "withdraw".toList
          wallet := wallet
          toW := toW
          kind := kind
          sol := withdrawn } now
    (st, Except.ok withdrawn)

/-- `GET /api/profile/:wallet` (source lines 823–838): normalizes (and
creates, for unseen wallets) the profile, backfills `referrer` from the
referral map, stores it back, persists. -/
def getProfile (st : Store) (wallet0 : Str) (now : ℚ) : Store × Profile :=
  let wallet := trimStr wallet0
  let p := ensureProfileS (lookupA st.profiles wallet) wallet now
  let p :=
    if p.referrer = [] ∧ truthyS (lookupA st.referrals wallet) then
      { p with referrer := (lookupA st.referrals wallet).getD [] }
    else p
  let st := { st with profiles := upsertA st.profiles wallet p }
  (st, p)

/-! ### Character and string lemmas -/

theorem toNat_ofNat_valid (n : Nat) (h : n.isValidChar) :
    (Char.ofNat n).toNat = n := by
  simp only [Char.ofNat, h, dif_pos, Char.ofNatAux, Char.toNat, UInt32.toNat,
    BitVec.toNat_ofNatLt]

theorem toUpper_toUpper (c : Char) : c.toUpper.toUpper = c.toUpper := by
  unfold Char.toUpper
  by_cases h : c.toNat ≥ 97 ∧ c.toNat ≤ 122
  · have hv : (c.toNat - 32).isValidChar := by
      left
      omega
    simp only [h, and_self, if_true, ite_true, toNat_ofNat_valid _ hv]
    rw [if_neg (by omega)]
  · simp only [h, if_false, ite_false]

theorem isWS_toUpper (c : Char) : isWS c.toUpper = isWS c := by
  unfold Char.toUpper
  by_cases h : c.toNat ≥ 97 ∧ c.toNat ≤ 122
  · have hv : (c.toNat - 32).isValidChar := by
      left
      omega
    have h1 : isWS (Char.ofNat (c.toNat - 32)) = false := by
      simp only [isWS, toNat_ofNat_valid _ hv, Bool.or_eq_false_iff,
        decide_eq_false_iff_not]
      omega
    have h2 : isWS c = false := by
      simp only [isWS, Bool.or_eq_false_iff, decide_eq_false_iff_not]
      omega
    simp only [h, and_self, ite_true, h1, h2]
  · simp only [h, ite_false]

theorem upperStr_upperStr (s : Str) : upperStr (upperStr s) = upperStr s := by
  simp only [upperStr, List.map_map]
  congr 1
  funext c
  exact toUpper_toUpper c

theorem isWS_comp_toUpper : (isWS ∘ Char.toUpper) = isWS := by
  funext c
  exact isWS_toUpper c

theorem dropWhile_upperStr (s : Str) :
    (upperStr s).dropWhile isWS = upperStr (s.dropWhile isWS) := by
  simp only [upperStr, List.dropWhile_map, isWS_comp_toUpper]

theorem rdropWhile_upperStr (s : Str) :
    (upperStr s).rdropWhile isWS = upperStr (s.rdropWhile isWS) := by
  simp only [upperStr, List.rdropWhile, ← List.map_reverse, List.dropWhile_map,
    isWS_comp_toUpper]

theorem trimStr_upperStr (s : Str) :
    trimStr (upperStr s) = upperStr (trimStr s) := by
  simp only [trimStr, dropWhile_upperStr, rdropWhile_upperStr]

theorem trimStr_trimStr (s : Str) : trimStr (trimStr s) = trimStr s := by
  unfold trimStr
  have h1 : ((s.dropWhile isWS).rdropWhile isWS).dropWhile isWS
      = (s.dropWhile isWS).rdropWhile isWS := by
    rw [List.dropWhile_eq_self_iff]
    intro hl
    have hpre := List.rdropWhile_prefix isWS (s.dropWhile isWS)
    have hlen : 0 < (s.dropWhile isWS).length :=
      lt_of_lt_of_le hl hpre.length_le
    have hna := List.dropWhile_get_zero_not isWS s hlen
    simp only [List.get_eq_getElem] at hna ⊢
    rw [hpre.getElem hl]
    exact hna
  rw [h1, List.rdropWhile_idempotent]

theorem trimStr_nil : trimStr [] = [] := by
  simp [trimStr, List.rdropWhile]

theorem upperStr_nil : upperStr [] = [] := rfl

/-! ### `strOr` lemmas -/

theorem strOrO_some (s : Str) (d : Str) : strOrO (some s) d = strOrS s d := rfl

theorem strOrS_nil_right (a : Str) : strOrS a [] = a := by
  by_cases h : a = [] <;> simp [strOrS, h]

theorem strOrS_self_absorb (a b : Str) :
    strOrS (strOrS a b) (strOrS b a) = strOrS a b := by
  by_cases ha : a = [] <;> by_cases hb : b = [] <;> simp [strOrS, ha, hb]

theorem strOrS_ne_nil (a d : Str) (hd : d ≠ []) : strOrS a d ≠ [] := by
  by_cases ha : a = [] <;> simp [strOrS, ha, hd]

theorem strOrS_absorb_of_ne_nil (a d : Str) (ha : a ≠ []) : strOrS a d = a := by
  simp [strOrS, ha]

theorem trimStr_strOrS_trim (x : Str) :
    trimStr (strOrS (trimStr x) []) = trimStr x := by
  rw [strOrS_nil_right, trimStr_trimStr]

theorem upper_trim_fix (x : Str) :
    upperStr (trimStr (upperStr (trimStr x))) = upperStr (trimStr x) := by
  rw [trimStr_upperStr, trimStr_trimStr, upperStr_upperStr]

/-- The `creatorWallet || owner` / `owner || creatorWallet` pair of
defaults is stable to a second normalization pass. -/
theorem strOr_pair_absorb (a b : Option Str) :
    strOrS (strOrO a (strOrO b [])) (strOrO b (strOrO a []))
      = strOrO a (strOrO b []) := by
  cases a <;> cases b <;> simp only [strOrO, strOrS] <;> split_ifs <;> simp_all

/-! ### Association list lemmas -/

theorem lookupA_upsertA_self {α : Type} (m : List (Str × α)) (k : Str) (v : α) :
    lookupA (upsertA m k v) k = some v := by
  induction m with
  | nil => simp [upsertA, lookupA]
  | cons kv rest ih =>
    by_cases h : kv.1 = k
    · simp [upsertA, lookupA, h]
    · simp [upsertA, lookupA, h, ih]

theorem lookupA_upsertA_ne {α : Type} (m : List (Str × α)) (k k' : Str) (v : α)
    (h : k' ≠ k) : lookupA (upsertA m k v) k' = lookupA m k' := by
  have hk : ¬(k = k') := fun hh => h hh.symm
  induction m with
  | nil => simp [upsertA, lookupA, hk]
  | cons kv rest ih =>
    by_cases hkv : kv.1 = k
    · have hkv' : ¬(kv.1 = k') := by
        rw [hkv]
        exact hk
      simp [upsertA, hkv, lookupA, hk, hkv']
    · by_cases hkv' : kv.1 = k' <;> simp [upsertA, hkv, lookupA, hkv', ih, h, hk]

theorem sumVals_upsertA_absent (m : List (Str × ℚ)) (k : Str) (v : ℚ)
    (h : lookupA m k = none) : sumVals (upsertA m k v) = sumVals m + v := by
  induction m with
  | nil => simp [upsertA, sumVals]
  | cons kv rest ih =>
    by_cases hk : kv.1 = k
    · simp [lookupA, hk] at h
    · simp only [lookupA, if_neg hk] at h
      simp only [upsertA, if_neg hk, sumVals, List.map_cons, List.sum_cons] at ih ⊢
      rw [ih h]
      ring

theorem sumVals_upsertA_present (m : List (Str × ℚ)) (k : Str) (v w : ℚ)
    (h : lookupA m k = some w) :
    sumVals (upsertA m k v) = sumVals m - w + v := by
  induction m with
  | nil => simp [lookupA] at h
  | cons kv rest ih =>
    by_cases hk : kv.1 = k
    · simp only [lookupA, if_pos hk, Option.some.injEq] at h
      simp only [upsertA, if_pos hk, sumVals, List.map_cons, List.sum_cons, h]
      ring
    · simp only [lookupA, if_neg hk] at h
      simp only [upsertA, if_neg hk, sumVals, List.map_cons, List.sum_cons] at ih ⊢
      rw [ih h]
      ring

theorem getA_eq_of_lookupA_none (m : List (Str × ℚ)) (k : Str)
    (h : lookupA m k = none) : getA m k = 0 := by
  simp [getA, h]

theorem getA_eq_of_lookupA_some (m : List (Str × ℚ)) (k : Str) (w : ℚ)
    (h : lookupA m k = some w) : getA m k = w := by
  simp [getA, h]

/-- Overwriting a key with a value no larger than its current effective
value never increases the total of the map. -/
theorem sumVals_upsertA_le (m : List (Str × ℚ)) (k : Str) (v : ℚ)
    (hv : v ≤ getA m k) : sumVals (upsertA m k v) ≤ sumVals m := by
  cases h : lookupA m k with
  | none =>
    rw [sumVals_upsertA_absent m k v h]
    have h0 : getA m k = 0 := getA_eq_of_lookupA_none m k h
    rw [h0] at hv
    linarith
  | some w =>
    rw [sumVals_upsertA_present m k v w h]
    have h0 : getA m k = w := getA_eq_of_lookupA_some m k w h
    rw [h0] at hv
    linarith

/-! ### `replaceFirst`, `find?` and `takeLast` lemmas -/

theorem find?_replaceFirst {α : Type} (q : α → Bool) (f : α → α) (l : List α)
    (hf : ∀ a, q a = true → q (f a) = true) :
    (replaceFirst q f l).find? q = (l.find? q).map f := by
  induction l with
  | nil => simp [replaceFirst]
  | cons x xs ih =>
    by_cases hx : q x = true
    · simp [replaceFirst, hx, List.find?_cons_of_pos, hf x hx]
    · have hx' : q x = false := by
        simpa using hx
      simp [replaceFirst, hx', List.find?_cons_of_neg, ih]

theorem length_replaceFirst {α : Type} (q : α → Bool) (f : α → α) (l : List α) :
    (replaceFirst q f l).length = l.length := by
  induction l with
  | nil => rfl
  | cons x xs ih =>
    by_cases hx : q x = true <;> simp [replaceFirst, hx, ih]

theorem takeLast_length_le {α : Type} (n : Nat) (l : List α) :
    (takeLast n l).length ≤ n := by
  simp only [takeLast, List.length_drop]
  omega

/-! ### Normalizer lemmas -/

/-- Re-normalizing an `ensureCoin` output (with any later timestamp and
uid) returns it unchanged, provided the uid supplied to the first
normalization was non-empty (as `crypto.randomUUID()` always is). -/
theorem ensureCoin_idem (r : RawCoin) (now now2 : ℚ) (uid uid2 : Str)
    (h : uid ≠ []) :
    ensureCoin (coinToRaw (ensureCoin r now uid)) now2 uid2
      = ensureCoin r now uid := by
  have hid : strOrO r.id uid ≠ [] := by
    cases hr : r.id with
    | none => simpa [strOrO] using h
    | some s =>
      by_cases hs : s = [] <;> simp [strOrO, strOrS, hs, h]
  have hstatus : strOrO r.status draftS ≠ [] := by
    cases hr : r.status with
    | none => simp [strOrO, draftS]
    | some s => exact strOrS_ne_nil s draftS (by simp [draftS])
  have hchart : ∀ (mc : ℚ),
      (match r.chart with
       | some l => if l = [] then [mc, mc, mc, mc, mc] else l
       | none => [mc, mc, mc, mc, mc]) ≠ ([] : List ℚ) := by
    intro mc
    cases hr : r.chart with
    | none => simp
    | some l =>
      by_cases hl : l = [] <;> simp [hl]
  have hch := hchart (r.mc.getD (if strOrO r.status draftS = liveS
    then STARTING_MC_USD else 0))
  simp only [ensureCoin, coinToRaw, Option.getD_some, strOrO_some, Coin.mk.injEq,
    strOrS_absorb_of_ne_nil _ _ hid, trimStr_strOrS_trim, upper_trim_fix,
    strOrS_nil_right, strOr_pair_absorb, strOrS_absorb_of_ne_nil _ _ hstatus,
    hch, if_false, trimStr_trimStr, and_self, and_true, true_and]

/-- Re-normalizing an `ensureProfile` output with the same wallet
argument preserves every field except `updatedAt`, which is refreshed
to the time of the later call. -/
theorem ensureProfile_renormalize (rp : Option RawProfile) (w : Str)
    (now now2 : ℚ) :
    ensureProfile (some (profileToRaw (ensureProfile rp w now))) w now2
      = { ensureProfile rp w now with updatedAt := now2 } := by
  have hwall : trimStr (strOrS w (strOrS (ensureProfile rp w now).wallet []))
      = (ensureProfile rp w now).wallet := by
    rw [strOrS_nil_right]
    by_cases hw : w = []
    · subst hw
      have h0 : strOrS [] (ensureProfile rp [] now).wallet
          = (ensureProfile rp [] now).wallet := rfl
      rw [h0]
      show trimStr (trimStr (strOrS [] (strOrO (rp.bind RawProfile.wallet) [])))
          = trimStr (strOrS [] (strOrO (rp.bind RawProfile.wallet) []))
      exact trimStr_trimStr _
    · rw [strOrS_absorb_of_ne_nil _ _ hw]
      show trimStr w = trimStr (strOrS w (strOrO (rp.bind RawProfile.wallet) []))
      rw [strOrS_absorb_of_ne_nil _ _ hw]
  have hrefr : strOrS (ensureProfile rp w now).referrer []
      = (ensureProfile rp w now).referrer := strOrS_nil_right _
  show Profile.mk
      (trimStr (strOrS w (strOrS (ensureProfile rp w now).wallet [])))
      (ensureProfile rp w now).holdings (ensureProfile rp w now).txs
      (ensureProfile rp w now).rewards
      (ensureProfile rp w now).referralRewards
      (strOrS (ensureProfile rp w now).referrer []) now2
      = { ensureProfile rp w now with updatedAt := now2 }
  rw [hwall, hrefr]

/-! ### Result projections -/

def exceptEq {ε α : Type} [DecidableEq ε] [DecidableEq α] :
    (x y : Except ε α) → Decidable (x = y)
  | Except.error e, Except.error f =>
    if h : e = f then isTrue (h ▸ rfl) else
      isFalse (fun hh => by
        cases hh
        exact h rfl)
  | Except.error _, Except.ok _ =>
    isFalse (fun hh => by cases hh)
  | Except.ok _, Except.error _ =>
    isFalse (fun hh => by cases hh)
  | Except.ok a, Except.ok b =>
    if h : a = b then isTrue (h ▸ rfl) else
      isFalse (fun hh => by
        cases hh
        exact h rfl)

instance {ε α : Type} [DecidableEq ε] [DecidableEq α] :
    DecidableEq (Except ε α) := exceptEq

def isOkTrade (r : Except Str (Coin × Profile)) : Bool :=
  match r with
  | Except.ok _ => true
  | Except.error _ => false

def tradeCoin (r : Except Str (Coin × Profile)) : Option Coin :=
  match r with
  | Except.ok cp => some cp.1
  | Except.error _ => none

def tradeProfile (r : Except Str (Coin × Profile)) : Option Profile :=
  match r with
  | Except.ok cp => some cp.2
  | Except.error _ => none

/-- Sum of all holder balances of the coin `cid` in `st` (0 when the
coin is absent). -/
def holdersSumOf (st : Store) (cid : Str) : ℚ :=
  match findCoin st cid with
  | some c => sumVals c.holders
  | none => 0

def coinSupplyOf (st : Store) (cid : Str) : ℚ :=
  match findCoin st cid with
  | some c => c.totalSupply
  | none => 0

def coinHoldingOf (st : Store) (cid w : Str) : ℚ :=
  match findCoin st cid with
  | some c => getA c.holders w
  | none => 0

/-- The wallet's holding entry for a coin inside a profile, if any. -/
def holdingAmt (p : Profile) (cid : Str) : Option ℚ :=
  (p.holdings.find? (fun h => h.coinId = cid)).map (fun h => h.amount)

/-! ### Concrete fixtures (shared by witnesses and counterexamples) -/

def walletCreator : Str := "CREATORWALLETAAAAAAAA".toList
def walletBuyer : Str := "BUYERWALLETAAAAAAAAAA".toList
def walletRef : Str := "REFERRERWALLETAAAAAAA".toList
def coinOneId : Str := "COIN-1".toList
def txU : Str := "TX".toList
def uidU : Str := "U".toList

/-- The store after issuing one LIVE coin (`initialSol = 1`) from the
empty store: the creator holds the 2% grant, `mc = ath = 6500`. -/
def stOne : Store :=
  (createCoin (defaultStore 0) "AA".toList "AA".toList [] [] 1 walletCreator 0
    coinOneId txU).1

/-! ## C7 — normalizer idempotence -/

/-- C7 counterexample: `ensureProfile` is not idempotent as stated —
re-normalizing an already-normalized profile at a later time returns a
different value, because `updatedAt` is unconditionally refreshed to
the current time on every call. -/
theorem C7_ensureProfile_not_idempotent_cex :
    ensureProfile (some (profileToRaw (ensureProfile none walletBuyer 0)))
        walletBuyer 1
      ≠ ensureProfile none walletBuyer 0 := by
  decide

/-- C7 (amended): `ensureCoin` is idempotent (re-normalizing an
`ensureCoin` output returns it unchanged, for the non-empty uids
`crypto.randomUUID` produces); `ensureProfile` is idempotent on every
field except `updatedAt`, which is set to the time of the later call. -/
theorem C7_normalizers_idempotent_amended (r : RawCoin)
    (rp : Option RawProfile) (w : Str) (now now2 : ℚ) (uid uid2 : Str)
    (h : uid ≠ []) :
    ensureCoin (coinToRaw (ensureCoin r now uid)) now2 uid2
        = ensureCoin r now uid ∧
    ensureProfile (some (profileToRaw (ensureProfile rp w now))) w now2
        = { ensureProfile rp w now with updatedAt := now2 } :=
  ⟨ensureCoin_idem r now now2 uid uid2 h,
   ensureProfile_renormalize rp w now now2⟩

/-- Witness for C7's amended theorem at a concrete raw coin and
profile. -/
theorem C7_normalizers_idempotent_amended_witness :
    uidU ≠ ([] : Str) ∧
    (ensureCoin (coinToRaw (ensureCoin (coinToRaw (ensureCoin
          { id := none, name := none, symbol := some "  ab ".toList,
            story := none, logo := none, creatorWallet := some walletCreator,
            owner := none, createdAt := none, status := some liveS, mc := none,
            ath := none, chart := none, volumeSol := none,
            creatorRewardsSol := none, totalSupply := none, holders := none,
            lastTradeAt := none } 3 uidU)) 3 uidU)) 4 txU
        = ensureCoin (coinToRaw (ensureCoin
          { id := none, name := none, symbol := some "  ab ".toList,
            story := none, logo := none, creatorWallet := some walletCreator,
            owner := none, createdAt := none, status := some liveS, mc := none,
            ath := none, chart := none, volumeSol := none,
            creatorRewardsSol := none, totalSupply := none, holders := none,
            lastTradeAt := none } 3 uidU)) 3 uidU ∧
     ensureProfile (some (profileToRaw (ensureProfile none walletBuyer 3)))
         walletBuyer 4
        = { ensureProfile none walletBuyer 3 with updatedAt := 4 }) := by
  refine ⟨by decide, ?_⟩
  exact C7_normalizers_idempotent_amended
    (coinToRaw (ensureCoin
      { id := none, name := none, symbol := some "  ab ".toList,
        story := none, logo := none, creatorWallet := some walletCreator,
        owner := none, createdAt := none, status := some liveS, mc := none,
        ath := none, chart := none, volumeSol := none,
        creatorRewardsSol := none, totalSupply := none, holders := none,
        lastTradeAt := none } 3 uidU)) none walletBuyer 3 4 uidU txU
    (by decide)

/-! ## C3 — ownership cap -/

/-- C3: the configuration declares `OWNER_MAX_PERCENT = 20`
(`// Owner cap`), but `handleTrade` never consults it: a single buy by
the coin's creator on their own coin is accepted even though the
resulting holding (≈155% of `totalSupply`) is far beyond the cap, and
no ownership-cap error exists anywhere in the trade path. -/
theorem C3_ownerCap_not_enforced :
    isOkTrade (handleTrade stOne walletCreator coinOneId buyS 10000 1 txU).2
        = true ∧
    OWNER_MAX_PERCENT / 100 *
        coinSupplyOf (handleTrade stOne walletCreator coinOneId buyS 10000 1
          txU).1 coinOneId
      < coinHoldingOf (handleTrade stOne walletCreator coinOneId buyS 10000 1
          txU).1 coinOneId walletCreator := by
  constructor
  · decide
  · decide

/-! ## C1 — holders sum vs total supply -/

/-- C1 counterexample: starting from the store that issue-coin itself
produced, a single buy of 10000 sol credits ≈1.54 billion tokens, so
the sum of the coin's holder balances (1,558,460,000) exceeds
`totalSupply` (1,000,000,000) — the engine has no supply check on
buys. -/
theorem C1_holdersSum_exceeds_supply_cex :
    isOkTrade (handleTrade stOne walletBuyer coinOneId buyS 10000 1 txU).2
        = true ∧
    coinSupplyOf (handleTrade stOne walletBuyer coinOneId buyS 10000 1 txU).1
        coinOneId
      < holdersSumOf (handleTrade stOne walletBuyer coinOneId buyS 10000 1
          txU).1 coinOneId := by
  constructor
  · decide
  · decide

/-! ### Handler-level helper lemmas -/

theorem findCoin_trimStr (st : Store) (c : Str) :
    findCoin st (trimStr c) = findCoin st c := by
  simp [findCoin, trimStr_trimStr]

theorem findCoin_ensureTreasury (st : Store) (now : ℚ) (c : Str) :
    findCoin (ensureTreasury st now) c = findCoin st c := rfl

theorem creditCreatorReward_holders (st : Store) (coin : Coin) (amt now : ℚ) :
    (creditCreatorReward st coin amt now).2.holders = coin.holders := by
  simp only [creditCreatorReward]
  split <;> rfl

theorem creditCreatorReward_status (st : Store) (coin : Coin) (amt now : ℚ) :
    (creditCreatorReward st coin amt now).2.status = coin.status := by
  simp only [creditCreatorReward]
  split <;> rfl

/-! ### Further concrete fixtures -/

def dummyCoin : Coin :=
  { id := uidU, name := [], symbol := [], story := [], logo := [],
    creatorWallet := [], owner := [], createdAt := 0, status := draftS,
    mc := 0, ath := 0, chart := [0, 0, 0, 0, 0], volumeSol := 0,
    creatorRewardsSol := 0, totalSupply := TOTAL_SUPPLY_DEFAULT, holders := [],
    lastTradeAt := 0 }

def dummyProfile : Profile :=
  { wallet := [], holdings := [], txs := [],
    rewards := { totalSol := 0, byCoin := [] },
    referralRewards := { totalSol := 0, byWallet := [] }, referrer := [],
    updatedAt := 0 }

/-- The coin returned by the concrete issue-coin call behind `stOne`. -/
def coinCreated : Coin :=
  ((createCoin (defaultStore 0) "AA".toList "AA".toList [] [] 1 walletCreator 0
    coinOneId txU).2.toOption).getD dummyCoin

def coinStOne : Coin := (findCoin stOne coinOneId).getD dummyCoin

/-- The concrete sell-everything trade by the creator on `stOne`. -/
def outSellOne : Store × Except Str (Coin × Profile) :=
  handleTrade stOne walletCreator coinOneId sellS 1000 2 txU

def coinAfterSell : Coin := (tradeCoin outSellOne.2).getD dummyCoin

def profAfterSell : Profile := (tradeProfile outSellOne.2).getD dummyProfile

theorem tokensFor_pos (coin : Coin) (sol : ℚ) : 0 < tokensFor coin sol := by
  simp only [tokensFor]
  exact lt_of_lt_of_le one_pos (le_max_left 1 _)

theorem tradePrepare_coin_holders (st : Store) (w : Str) (coin : Coin)
    (sol now : ℚ) :
    (tradePrepare st w coin sol now).2.holders = coin.holders := by
  simp only [tradePrepare]
  exact creditCreatorReward_holders _ _ _ _

theorem tradePrepare_coin_status (st : Store) (w : Str) (coin : Coin)
    (sol now : ℚ) :
    (tradePrepare st w coin sol now).2.status = coin.status := by
  simp only [tradePrepare]
  exact creditCreatorReward_status _ _ _ _

/-- A successful sell never increases the holder sum of the traded
coin, provided the stored holder balance of the seller is
non-negative. -/
theorem tradeSell_holders_le (st : Store) (coin : Coin) (p : Profile)
    (w cid : Str) (sol now : ℚ) (tu : Str) (c2 : Coin) (p2 : Profile)
    (hnn : 0 ≤ getA coin.holders w)
    (hok : (tradeSell st coin p w cid sol now tu).2 = Except.ok (c2, p2)) :
    sumVals c2.holders ≤ sumVals coin.holders := by
  simp only [tradeSell] at hok
  split at hok
  · simp at hok
  · rename_i hcond
    push_neg at hcond
    simp only [Except.ok.injEq, Prod.mk.injEq] at hok
    obtain ⟨hc2, -⟩ := hok
    subst hc2
    apply sumVals_upsertA_le
    apply max_le hnn
    apply sub_le_self
    exact le_min (le_of_lt hcond.2) (le_of_lt (tokensFor_pos coin sol))

/-- C1 (amended): the freshly issued coin's holder sum is exactly the
2% creator grant — 20,000,000 tokens, at most `totalSupply` — and a
successful sell never increases the traded coin's holder sum when the
stored holder balance is non-negative.  (Buys carry no supply bound:
see the counterexample.) -/
theorem C1_holdersSum_amended :
    (∀ (st : Store) (n sy so lg : Str) (isol : ℚ) (cw : Str) (now : ℚ)
      (cu tu : Str) (c : Coin),
      (createCoin st n sy so lg isol cw now cu tu).2 = Except.ok c →
      sumVals c.holders = 20000000 ∧ sumVals c.holders ≤ c.totalSupply) ∧
    (∀ (st : Store) (w cid s : Str) (sol now : ℚ) (tu : Str) (coin : Coin)
      (c2 : Coin) (p2 : Profile),
      lowerStr (trimStr s) = sellS →
      findCoin st cid = some coin →
      0 ≤ getA coin.holders (trimStr w) →
      (handleTrade st w cid s sol now tu).2 = Except.ok (c2, p2) →
      sumVals c2.holders ≤ sumVals coin.holders) := by
  constructor
  · intro st n sy so lg isol cw now cu tu c h
    simp only [createCoin] at h
    split at h
    · simp at h
    · simp only [Except.ok.injEq] at h
      subst h
      constructor
      · simp only [ensureCoin, Option.getD_some, upsertA, getA, lookupA,
          Option.getD_none, sumVals, List.map_cons, List.map_nil,
          List.sum_cons, List.sum_nil, mfloor, TOTAL_SUPPLY_DEFAULT,
          CREATOR_PERCENT]
        norm_num
      · simp only [ensureCoin, Option.getD_some, upsertA, getA, lookupA,
          Option.getD_none, sumVals, List.map_cons, List.map_nil,
          List.sum_cons, List.sum_nil, mfloor, TOTAL_SUPPLY_DEFAULT,
          CREATOR_PERCENT]
        norm_num
  · intro st w cid s sol now tu coin c2 p2 hside hfind hnn hok
    simp only [handleTrade] at hok
    split at hok
    · simp at hok
    · split at hok
      · simp at hok
      · rw [findCoin_ensureTreasury, findCoin_trimStr, hfind] at hok
        simp only [] at hok
        split at hok
        · simp at hok
        · rw [hside, if_neg (by decide : ¬(sellS = buyS))] at hok
          have hch : (tradePrepare (ensureTreasury st now) (trimStr w) coin sol
              now).2.holders = coin.holders :=
            tradePrepare_coin_holders _ _ _ _ _
          have hnn2 : 0 ≤ getA (tradePrepare (ensureTreasury st now)
              (trimStr w) coin sol now).2.holders (trimStr w) := by
            rw [hch]
            exact hnn
          have hres := tradeSell_holders_le _ _ _ _ _ _ _ _ _ _ hnn2 hok
          rwa [hch] at hres

/-! ### Dispatch lemmas for `handleTrade` -/

theorem handleTrade_notFound_eq (st : Store) (w c s : Str) (sol now : ℚ)
    (tu : Str) (hw : trimStr w ≠ []) (hc : trimStr c ≠ [])
    (hside : lowerStr (trimStr s) = buyS ∨ lowerStr (trimStr s) = sellS)
    (hsol : 0 < sol) (hfind : findCoin st c = none) :
    handleTrade st w c s sol now tu
      = (ensureTreasury st now, Except.error errCoinNotFound) := by
  simp only [handleTrade]
  rw [if_neg, if_neg]
  · rw [findCoin_ensureTreasury, findCoin_trimStr, hfind]
  · rcases hside with h | h <;> rw [h] <;> simp
  · push_neg
    refine ⟨hw, hc, ?_, hsol⟩
    rcases hside with h | h <;> rw [h] <;> decide

theorem handleTrade_notLive_eq (st : Store) (w c s : Str) (sol now : ℚ)
    (tu : Str) (coin : Coin) (hw : trimStr w ≠ []) (hc : trimStr c ≠ [])
    (hside : lowerStr (trimStr s) = buyS ∨ lowerStr (trimStr s) = sellS)
    (hsol : 0 < sol) (hfind : findCoin st c = some coin)
    (hlive : coin.status ≠ liveS) :
    handleTrade st w c s sol now tu
      = (ensureTreasury st now, Except.error errCoinNotLive) := by
  simp only [handleTrade]
  rw [if_neg, if_neg]
  · rw [findCoin_ensureTreasury, findCoin_trimStr, hfind]
    simp only []
    rw [if_pos hlive]
  · rcases hside with h | h <;> rw [h] <;> simp
  · push_neg
    refine ⟨hw, hc, ?_, hsol⟩
    rcases hside with h | h <;> rw [h] <;> decide

theorem handleTrade_sell_eq (st : Store) (w c s : Str) (sol now : ℚ)
    (tu : Str) (coin : Coin) (hw : trimStr w ≠ []) (hc : trimStr c ≠ [])
    (hside : lowerStr (trimStr s) = sellS) (hsol : 0 < sol)
    (hfind : findCoin st c = some coin) (hlive : coin.status = liveS) :
    handleTrade st w c s sol now tu
      = tradeSell (tradePrepare (ensureTreasury st now) (trimStr w) coin sol
          now).1
          (tradePrepare (ensureTreasury st now) (trimStr w) coin sol now).2
          (ensureProfileS (lookupA st.profiles (trimStr w)) (trimStr w) now)
          (trimStr w) (trimStr c) sol now tu := by
  simp only [handleTrade]
  rw [hside]
  rw [if_neg, if_neg]
  · rw [findCoin_ensureTreasury, findCoin_trimStr, hfind]
    simp only []
    rw [if_neg (by simp [hlive]), if_neg (by decide : ¬(sellS = buyS))]
    rfl
  · decide
  · push_neg
    exact ⟨hw, hc, by decide, hsol⟩

theorem handleTrade_buy_eq (st : Store) (w c s : Str) (sol now : ℚ)
    (tu : Str) (coin : Coin) (hw : trimStr w ≠ []) (hc : trimStr c ≠ [])
    (hside : lowerStr (trimStr s) = buyS) (hsol : 0 < sol)
    (hfind : findCoin st c = some coin) (hlive : coin.status = liveS) :
    handleTrade st w c s sol now tu
      = tradeBuy (tradePrepare (ensureTreasury st now) (trimStr w) coin sol
          now).1
          (tradePrepare (ensureTreasury st now) (trimStr w) coin sol now).2
          (ensureProfileS (lookupA st.profiles (trimStr w)) (trimStr w) now)
          (trimStr w) (trimStr c) sol now tu := by
  simp only [handleTrade]
  rw [hside]
  rw [if_neg, if_neg]
  · rw [findCoin_ensureTreasury, findCoin_trimStr, hfind]
    simp only []
    rw [if_neg (by simp [hlive])]
    simp only [if_true, ite_true]
    rfl
  · decide
  · push_neg
    exact ⟨hw, hc, by decide, hsol⟩

/-- The sell branch's insufficient-holding rejection returns the store
as mutated so far (fees already distributed by `tradePrepare`). -/
theorem tradeSell_reject_eq (st : Store) (coin : Coin) (p : Profile)
    (w cid : Str) (sol now : ℚ) (tu : Str)
    (hempty : p.holdings.find? (fun h => h.coinId = cid) = none ∨
      (match p.holdings.find? (fun h => h.coinId = cid) with
       | some h => h.amount
       | none => 0) ≤ 0) :
    tradeSell st coin p w cid sol now tu = (st, Except.error errNoTokens) := by
  simp only [tradeSell]
  rw [if_pos hempty]

/-! ### Frame lemmas for the fee-distribution phase -/

theorem creditCreatorReward_treasury (st : Store) (coin : Coin)
    (amt now : ℚ) : (creditCreatorReward st coin amt now).1.treasury
      = st.treasury := by
  simp only [creditCreatorReward]
  split <;> rfl

theorem creditReferralReward_treasury (st : Store) (w : Str) (amt now : ℚ) :
    (creditReferralReward st w amt now).treasury = st.treasury := by
  simp only [creditReferralReward]
  split
  · rfl
  · split <;> rfl

theorem creditCreatorReward_referrals (st : Store) (coin : Coin)
    (amt now : ℚ) : (creditCreatorReward st coin amt now).1.referrals
      = st.referrals := by
  simp only [creditCreatorReward]
  split <;> rfl

theorem creditReferralReward_referrals (st : Store) (w : Str) (amt now : ℚ) :
    (creditReferralReward st w amt now).referrals = st.referrals := by
  simp only [creditReferralReward]
  split
  · rfl
  · split <;> rfl

theorem creditCreatorReward_logs (st : Store) (coin : Coin) (amt now : ℚ) :
    (creditCreatorReward st coin amt now).1.logs = st.logs := by
  simp only [creditCreatorReward]
  split <;> rfl

theorem creditReferralReward_logs (st : Store) (w : Str) (amt now : ℚ) :
    (creditReferralReward st w amt now).logs = st.logs := by
  simp only [creditReferralReward]
  split
  · rfl
  · split <;> rfl

theorem creditCreatorReward_coins (st : Store) (coin : Coin) (amt now : ℚ) :
    (creditCreatorReward st coin amt now).1.coins = st.coins := by
  simp only [creditCreatorReward]
  split <;> rfl

theorem creditReferralReward_coins (st : Store) (w : Str) (amt now : ℚ) :
    (creditReferralReward st w amt now).coins = st.coins := by
  simp only [creditReferralReward]
  split
  · rfl
  · split <;> rfl

theorem creditCreatorReward_id (st : Store) (coin : Coin) (amt now : ℚ) :
    (creditCreatorReward st coin amt now).2.id = coin.id := by
  simp only [creditCreatorReward]
  split <;> rfl

/-- `creditCreatorReward` changes only `creatorRewardsSol` on the coin. -/
theorem creditCreatorReward_coinView (st : Store) (coin : Coin)
    (amt now : ℚ) :
    ((creditCreatorReward st coin amt now).2.holders,
      (creditCreatorReward st coin amt now).2.mc,
      (creditCreatorReward st coin amt now).2.ath,
      (creditCreatorReward st coin amt now).2.chart)
      = (coin.holders, coin.mc, coin.ath, coin.chart) := by
  simp only [creditCreatorReward]
  split <;> rfl

theorem tradePrepare_devSol (st : Store) (w : Str) (coin : Coin)
    (sol now : ℚ) : (tradePrepare st w coin sol now).1.treasury.devSol
      = st.treasury.devSol + (feeSplit sol).dev := by
  simp only [tradePrepare, creditReferralReward_treasury]
  rw [show (creditCreatorReward
    { st with treasury :=
        { st.treasury with
          devSol := st.treasury.devSol + (feeSplit sol).dev
          reserveSol := st.treasury.reserveSol + (feeSplit sol).reserve } }
    coin (feeSplit sol).creator now).1.treasury
    = { st.treasury with
        devSol := st.treasury.devSol + (feeSplit sol).dev
        reserveSol := st.treasury.reserveSol + (feeSplit sol).reserve }
    from creditCreatorReward_treasury _ _ _ _]

theorem tradePrepare_reserveSol (st : Store) (w : Str) (coin : Coin)
    (sol now : ℚ) : (tradePrepare st w coin sol now).1.treasury.reserveSol
      = st.treasury.reserveSol + (feeSplit sol).reserve := by
  simp only [tradePrepare, creditReferralReward_treasury]
  rw [show (creditCreatorReward
    { st with treasury :=
        { st.treasury with
          devSol := st.treasury.devSol + (feeSplit sol).dev
          reserveSol := st.treasury.reserveSol + (feeSplit sol).reserve } }
    coin (feeSplit sol).creator now).1.treasury
    = { st.treasury with
        devSol := st.treasury.devSol + (feeSplit sol).dev
        reserveSol := st.treasury.reserveSol + (feeSplit sol).reserve }
    from creditCreatorReward_treasury _ _ _ _]

theorem tradePrepare_referrals (st : Store) (w : Str) (coin : Coin)
    (sol now : ℚ) : (tradePrepare st w coin sol now).1.referrals
      = st.referrals := by
  simp only [tradePrepare, creditReferralReward_referrals,
    creditCreatorReward_referrals]

theorem tradePrepare_logs (st : Store) (w : Str) (coin : Coin)
    (sol now : ℚ) : (tradePrepare st w coin sol now).1.logs = st.logs := by
  simp only [tradePrepare, creditReferralReward_logs, creditCreatorReward_logs]

/-- Replacing the first element found by `find?` with an element that
agrees under the view `g` leaves the `g`-image of the list unchanged. -/
theorem map_replaceFirst_of_find? {α β : Type} (q : α → Bool) (f : α → α)
    (g : α → β) (l : List α) (a : α) (hfind : l.find? q = some a)
    (hg : g (f a) = g a) : (replaceFirst q f l).map g = l.map g := by
  induction l with
  | nil => simp [List.find?] at hfind
  | cons x xs ih =>
    by_cases hx : q x = true
    · rw [List.find?_cons_of_pos _ hx] at hfind
      simp only [Option.some.injEq] at hfind
      subst hfind
      simp [replaceFirst, hx, hg]
    · have hx' : q x = false := by simpa using hx
      rw [List.find?_cons_of_neg _ hx] at hfind
      simp [replaceFirst, hx', ih hfind]

/-- The coin view (holders, mc, ath, chart) of every coin in the store
is unchanged by the fee-distribution phase. -/
theorem tradePrepare_coins_view (st : Store) (w c : Str) (coin : Coin)
    (sol now : ℚ) (hfind : findCoin st c = some coin) :
    (tradePrepare st w coin sol now).1.coins.map
        (fun x => (x.holders, x.mc, x.ath, x.chart))
      = st.coins.map (fun x => (x.holders, x.mc, x.ath, x.chart)) := by
  have hid : coin.id = trimStr c := by
    have := List.find?_some hfind
    simpa using this
  simp only [tradePrepare, creditReferralReward_coins,
    creditCreatorReward_coins]
  apply map_replaceFirst_of_find?
  · show st.coins.find? _ = some coin
    rw [show (fun x : Coin => decide (x.id = (creditCreatorReward _ coin _
        now).2.id)) = fun x : Coin => decide (x.id = trimStr c) by
      funext x
      rw [creditCreatorReward_id, hid]]
    exact hfind
  · exact creditCreatorReward_coinView _ _ _ _

/-- Reading a профиle's holdings through an `ensureProfileS`. -/
theorem ensureProfileS_holdings (o : Option Profile) (w : Str) (now : ℚ) :
    (ensureProfileS o w now).holdings = (o.map Profile.holdings).getD [] := by
  cases o <;> rfl

theorem creditCreatorReward_profile_holdings (st : Store) (coin : Coin)
    (amt now : ℚ) (w' : Str) :
    ((lookupA (creditCreatorReward st coin amt now).1.profiles w').map
        Profile.holdings).getD []
      = ((lookupA st.profiles w').map Profile.holdings).getD [] := by
  simp only [creditCreatorReward]
  split
  · rfl
  · by_cases hw : w' = trimStr (strOrS coin.creatorWallet coin.owner)
    · subst hw
      rw [lookupA_upsertA_self]
      simp only [Option.map_some', Option.getD_some]
      exact ensureProfileS_holdings _ _ _
    · rw [lookupA_upsertA_ne _ _ _ _ hw]

theorem creditReferralReward_profile_holdings (st : Store) (w : Str)
    (amt now : ℚ) (w' : Str) :
    ((lookupA (creditReferralReward st w amt now).profiles w').map
        Profile.holdings).getD []
      = ((lookupA st.profiles w').map Profile.holdings).getD [] := by
  simp only [creditReferralReward]
  split
  · rfl
  · split
    · rfl
    · by_cases hw : w' = trimStr (strOrO (lookupA st.referrals (trimStr w)) [])
      · subst hw
        rw [lookupA_upsertA_self]
        simp only [Option.map_some', Option.getD_some]
        exact ensureProfileS_holdings _ _ _
      · rw [lookupA_upsertA_ne _ _ _ _ hw]

theorem tradePrepare_profile_holdings (st : Store) (w : Str) (coin : Coin)
    (sol now : ℚ) (w' : Str) :
    ((lookupA (tradePrepare st w coin sol now).1.profiles w').map
        Profile.holdings).getD []
      = ((lookupA st.profiles w').map Profile.holdings).getD [] := by
  simp only [tradePrepare]
  rw [creditReferralReward_profile_holdings]
  show ((lookupA (creditCreatorReward _ coin _ now).1.profiles w').map
    Profile.holdings).getD [] = _
  rw [creditCreatorReward_profile_holdings]

/-- Witness for C1's amended theorem: the concrete issue-coin call
behind `stOne` and the concrete sell-everything trade on it. -/
theorem C1_holdersSum_amended_witness :
    ((createCoin (defaultStore 0) "AA".toList "AA".toList [] [] 1
        walletCreator 0 coinOneId txU).2 = Except.ok coinCreated ∧
      (sumVals coinCreated.holders = 20000000 ∧
        sumVals coinCreated.holders ≤ coinCreated.totalSupply)) ∧
    (lowerStr (trimStr sellS) = sellS ∧
      findCoin stOne coinOneId = some coinStOne ∧
      0 ≤ getA coinStOne.holders (trimStr walletCreator) ∧
      (handleTrade stOne walletCreator coinOneId sellS 1000 2 txU).2
        = Except.ok (coinAfterSell, profAfterSell) ∧
      sumVals coinAfterSell.holders ≤ sumVals coinStOne.holders) := by
  constructor
  · refine ⟨by decide, ?_⟩
    exact C1_holdersSum_amended.1 (defaultStore 0) "AA".toList "AA".toList []
      [] 1 walletCreator 0 coinOneId txU coinCreated (by decide)
  · refine ⟨by decide, by decide, by decide, by decide, ?_⟩
    exact C1_holdersSum_amended.2 stOne walletCreator coinOneId sellS 1000 2
      txU coinStOne coinAfterSell profAfterSell (by decide) (by decide)
      (by decide) (by decide)

/-! ## C2 — rejected trades and partial mutation -/

/-- C2 counterexample: a sell rejected with "No tokens to sell" has
already mutated the store — the fee split runs before the
insufficient-holding check, so the dev treasury (among others) has
grown even though the trade was refused. -/
theorem C2_rejected_sell_mutates_cex :
    (handleTrade stOne walletBuyer coinOneId sellS 1 3 txU).2
        = Except.error errNoTokens ∧
    (handleTrade stOne walletBuyer coinOneId sellS 1 3 txU).1 ≠ stOne ∧
    (handleTrade stOne walletBuyer coinOneId sellS 1 3 txU).1.treasury.devSol
      ≠ stOne.treasury.devSol := by
  refine ⟨by decide, by decide, by decide⟩

/-- C2 (amended): rejections for coin-not-found and coin-not-LIVE leave
the store untouched except that `ensureTreasury` refreshes the
treasury's `updatedAt` timestamp (coins, profiles, referrals, logs and
both treasury totals are unchanged).  A sell rejected for insufficient
holding, however, returns the store with the fee split already applied:
the dev and reserve treasuries have grown by their shares of the fee
(and creator/referral rewards have been credited), while all holder
maps, market data and all profiles' holdings are unchanged. -/
theorem C2_rejected_trade_amended :
    (∀ (st : Store) (now : ℚ),
      (ensureTreasury st now).coins = st.coins ∧
      (ensureTreasury st now).profiles = st.profiles ∧
      (ensureTreasury st now).referrals = st.referrals ∧
      (ensureTreasury st now).logs = st.logs ∧
      (ensureTreasury st now).treasury.devSol = st.treasury.devSol ∧
      (ensureTreasury st now).treasury.reserveSol
        = st.treasury.reserveSol) ∧
    (∀ (st : Store) (w c s : Str) (sol now : ℚ) (tu : Str),
      trimStr w ≠ [] → trimStr c ≠ [] →
      (lowerStr (trimStr s) = buyS ∨ lowerStr (trimStr s) = sellS) →
      0 < sol → findCoin st c = none →
      handleTrade st w c s sol now tu
        = (ensureTreasury st now, Except.error errCoinNotFound)) ∧
    (∀ (st : Store) (w c s : Str) (sol now : ℚ) (tu : Str) (coin : Coin),
      trimStr w ≠ [] → trimStr c ≠ [] →
      (lowerStr (trimStr s) = buyS ∨ lowerStr (trimStr s) = sellS) →
      0 < sol → findCoin st c = some coin → coin.status ≠ liveS →
      handleTrade st w c s sol now tu
        = (ensureTreasury st now, Except.error errCoinNotLive)) ∧
    (∀ (st : Store) (w c s : Str) (sol now : ℚ) (tu : Str) (coin : Coin),
      trimStr w ≠ [] → trimStr c ≠ [] → lowerStr (trimStr s) = sellS →
      0 < sol → findCoin st c = some coin → coin.status = liveS →
      ((ensureProfileS (lookupA st.profiles (trimStr w)) (trimStr w)
          now).holdings.find? (fun h => h.coinId = trimStr c) = none ∨
        (match (ensureProfileS (lookupA st.profiles (trimStr w)) (trimStr w)
            now).holdings.find? (fun h => h.coinId = trimStr c) with
         | some h => h.amount
         | none => 0) ≤ 0) →
      handleTrade st w c s sol now tu
        = ((tradePrepare (ensureTreasury st now) (trimStr w) coin sol now).1,
           Except.error errNoTokens) ∧
      (handleTrade st w c s sol now tu).1.treasury.devSol
        = st.treasury.devSol
          + sol * pctToFrac FEE_PCT * pctToFrac TRADE_DEV_PCT ∧
      (handleTrade st w c s sol now tu).1.treasury.reserveSol
        = st.treasury.reserveSol
          + sol * pctToFrac FEE_PCT * pctToFrac TRADE_RESERVE_PCT ∧
      (handleTrade st w c s sol now tu).1.coins.map
          (fun x => (x.holders, x.mc, x.ath, x.chart))
        = st.coins.map (fun x => (x.holders, x.mc, x.ath, x.chart)) ∧
      (∀ w', ((lookupA (handleTrade st w c s sol now tu).1.profiles w').map
          Profile.holdings).getD []
        = ((lookupA st.profiles w').map Profile.holdings).getD [])) := by
  refine ⟨fun st now => ⟨rfl, rfl, rfl, rfl, rfl, rfl⟩, ?_, ?_, ?_⟩
  · intro st w c s sol now tu hw hc hside hsol hfind
    exact handleTrade_notFound_eq st w c s sol now tu hw hc hside hsol hfind
  · intro st w c s sol now tu coin hw hc hside hsol hfind hlive
    exact handleTrade_notLive_eq st w c s sol now tu coin hw hc hside hsol
      hfind hlive
  · intro st w c s sol now tu coin hw hc hside hsol hfind hlive hempty
    have heq := handleTrade_sell_eq st w c s sol now tu coin hw hc hside hsol
      hfind hlive
    have hrej := tradeSell_reject_eq
      (tradePrepare (ensureTreasury st now) (trimStr w) coin sol now).1
      (tradePrepare (ensureTreasury st now) (trimStr w) coin sol now).2
      (ensureProfileS (lookupA st.profiles (trimStr w)) (trimStr w) now)
      (trimStr w) (trimStr c) sol now tu hempty
    have hfind2 : findCoin (ensureTreasury st now) (trimStr c) = some coin := by
      rw [findCoin_ensureTreasury, findCoin_trimStr]
      exact hfind
    refine ⟨by rw [heq, hrej], ?_, ?_, ?_, ?_⟩
    · rw [heq, hrej]
      show (tradePrepare (ensureTreasury st now) (trimStr w) coin sol
        now).1.treasury.devSol = _
      rw [tradePrepare_devSol]
      rfl
    · rw [heq, hrej]
      show (tradePrepare (ensureTreasury st now) (trimStr w) coin sol
        now).1.treasury.reserveSol = _
      rw [tradePrepare_reserveSol]
      rfl
    · rw [heq, hrej]
      show (tradePrepare (ensureTreasury st now) (trimStr w) coin sol
        now).1.coins.map _ = _
      rw [tradePrepare_coins_view (ensureTreasury st now) (trimStr w)
        (trimStr c) coin sol now hfind2]
      rfl
    · intro w2
      rw [heq, hrej]
      show ((lookupA (tradePrepare (ensureTreasury st now) (trimStr w) coin
        sol now).1.profiles w2).map Profile.holdings).getD [] = _
      rw [tradePrepare_profile_holdings]
      rfl

/-- Witness for C2's amended theorem: the concrete rejected sell by a
wallet with no holding on `stOne` (fourth conjunct), hypotheses
discharged by computation. -/
theorem C2_rejected_trade_amended_witness :
    trimStr walletBuyer ≠ [] ∧ trimStr coinOneId ≠ [] ∧
    lowerStr (trimStr sellS) = sellS ∧ (0 : ℚ) < 1 ∧
    findCoin stOne coinOneId = some coinStOne ∧ coinStOne.status = liveS ∧
    ((ensureProfileS (lookupA stOne.profiles (trimStr walletBuyer))
        (trimStr walletBuyer) 3).holdings.find?
        (fun h => h.coinId = trimStr coinOneId) = none ∨
      (match (ensureProfileS (lookupA stOne.profiles (trimStr walletBuyer))
          (trimStr walletBuyer) 3).holdings.find?
          (fun h => h.coinId = trimStr coinOneId) with
       | some h => h.amount
       | none => 0) ≤ 0) ∧
    handleTrade stOne walletBuyer coinOneId sellS 1 3 txU
      = ((tradePrepare (ensureTreasury stOne 3) (trimStr walletBuyer)
          coinStOne 1 3).1, Except.error errNoTokens) ∧
    (handleTrade stOne walletBuyer coinOneId sellS 1 3 txU).1.treasury.devSol
      = stOne.treasury.devSol
        + 1 * pctToFrac FEE_PCT * pctToFrac TRADE_DEV_PCT := by
  refine ⟨by decide, by decide, by decide, by decide, by decide, by decide,
    by decide, ?_, ?_⟩
  · exact (C2_rejected_trade_amended.2.2.2 stOne walletBuyer coinOneId sellS
      1 3 txU coinStOne (by decide) (by decide) (by decide) (by decide)
      (by decide) (by decide) (by decide)).1
  · exact (C2_rejected_trade_amended.2.2.2 stOne walletBuyer coinOneId sellS
      1 3 txU coinStOne (by decide) (by decide) (by decide) (by decide)
      (by decide) (by decide) (by decide)).2.1

/-! ## C9 — sell mechanics -/

theorem creditCreatorReward_mc (st : Store) (coin : Coin) (amt now : ℚ) :
    (creditCreatorReward st coin amt now).2.mc = coin.mc := by
  simp only [creditCreatorReward]
  split <;> rfl

theorem creditCreatorReward_totalSupply (st : Store) (coin : Coin)
    (amt now : ℚ) :
    (creditCreatorReward st coin amt now).2.totalSupply = coin.totalSupply := by
  simp only [creditCreatorReward]
  split <;> rfl

theorem tokensFor_credit (st : Store) (coin : Coin) (amt now sol2 : ℚ) :
    tokensFor (creditCreatorReward st coin amt now).2 sol2
      = tokensFor coin sol2 := by
  simp only [tokensFor, creditCreatorReward_mc, creditCreatorReward_totalSupply]

theorem tradePrepare_tokensFor (st : Store) (w : Str) (coin : Coin)
    (sol now sol2 : ℚ) :
    tokensFor (tradePrepare st w coin sol now).2 sol2 = tokensFor coin sol2 := by
  simp only [tradePrepare]
  exact tokensFor_credit _ _ _ _ _

/-- C9 counterexample: the creator sells their whole 2% grant (a
1000-sol sell prices far above the grant, so the sold quantity is
capped at the full holding); the holding entry reaches amount 0 and is
NOT pruned — it stays in the profile's holdings list. -/
theorem C9_zero_holding_not_pruned_cex :
    (handleTrade stOne walletCreator coinOneId sellS 1000 2 txU).2
        = Except.ok (coinAfterSell, profAfterSell) ∧
    holdingAmt profAfterSell coinOneId = some 0 ∧
    profAfterSell.holdings.length = 1 := by
  refine ⟨by decide, by decide, by decide⟩

/-- C9 (amended): on every successful sell the sold quantity is
`min(holding, tokens)` — capped at the wallet's current profile
holding — the profile holding is debited by exactly that quantity and
stays non-negative, the holder-map balance is set to
`max(0, old − quantity)` (clamped at zero, never negative), and the
holding entry is NOT pruned when it reaches zero: the holdings list
keeps its length. -/
theorem C9_sell_mechanics_amended (st : Store) (w c s : Str) (sol now : ℚ)
    (tu : Str) (coin : Coin) (h0 : Holding) (c2 : Coin) (p2 : Profile)
    (hw : trimStr w ≠ []) (hc : trimStr c ≠ [])
    (hside : lowerStr (trimStr s) = sellS) (hsol : 0 < sol)
    (hfind : findCoin st c = some coin) (hlive : coin.status = liveS)
    (hfound : (ensureProfileS (lookupA st.profiles (trimStr w)) (trimStr w)
      now).holdings.find? (fun h => h.coinId = trimStr c) = some h0)
    (hpos : 0 < h0.amount)
    (hok : (handleTrade st w c s sol now tu).2 = Except.ok (c2, p2)) :
    holdingAmt p2 (trimStr c)
        = some (h0.amount - min h0.amount (tokensFor coin sol)) ∧
    0 ≤ h0.amount - min h0.amount (tokensFor coin sol) ∧
    p2.holdings.length = (ensureProfileS (lookupA st.profiles (trimStr w))
      (trimStr w) now).holdings.length ∧
    getA c2.holders (trimStr w)
      = max 0 (getA coin.holders (trimStr w)
          - min h0.amount (tokensFor coin sol)) := by
  rw [handleTrade_sell_eq st w c s sol now tu coin hw hc hside hsol hfind
    hlive] at hok
  simp only [tradeSell] at hok
  rw [hfound] at hok
  simp only [] at hok
  rw [if_neg (by
    push_neg
    exact ⟨by simp, hpos⟩)] at hok
  simp only [Except.ok.injEq, Prod.mk.injEq] at hok
  obtain ⟨hc2, hp2⟩ := hok
  rw [← tradePrepare_tokensFor (ensureTreasury st now) (trimStr w) coin sol
    now sol]
  subst hc2
  subst hp2
  refine ⟨?_, ?_, ?_, ?_⟩
  · show ((replaceFirst (fun h => h.coinId = trimStr c) _
      (ensureProfileS (lookupA st.profiles (trimStr w)) (trimStr w)
        now).holdings).find? (fun h => h.coinId = trimStr c)).map
      (fun h => h.amount) = _
    rw [find?_replaceFirst _ _ _ (by
      intro a ha
      simpa using ha)]
    rw [hfound]
    rfl
  · simp only [sub_nonneg]
    exact min_le_left _ _
  · show (replaceFirst _ _ (ensureProfileS (lookupA st.profiles (trimStr w))
      (trimStr w) now).holdings).length = _
    exact length_replaceFirst _ _ _
  · show getA (upsertA (tradePrepare (ensureTreasury st now) (trimStr w) coin
      sol now).2.holders (trimStr w) _) (trimStr w) = _
    rw [getA, lookupA_upsertA_self]
    simp only [Option.getD_some]
    rw [tradePrepare_coin_holders]

/-- The holding entry behind `stOne`'s creator (the 2% grant). -/
def holdingStOne : Holding :=
  ((ensureProfileS (lookupA stOne.profiles (trimStr walletCreator))
    (trimStr walletCreator) 2).holdings.find?
    (fun h => h.coinId = trimStr coinOneId)).getD
    { coinId := [], symbol := [], amount := 0, lastAt := 0 }

/-- Witness for C9's amended theorem at the concrete creator sell on
`stOne`. -/
theorem C9_sell_mechanics_amended_witness :
    (trimStr walletCreator ≠ [] ∧ trimStr coinOneId ≠ [] ∧
      lowerStr (trimStr sellS) = sellS ∧ (0 : ℚ) < 1000 ∧
      findCoin stOne coinOneId = some coinStOne ∧
      coinStOne.status = liveS ∧
      (ensureProfileS (lookupA stOne.profiles (trimStr walletCreator))
        (trimStr walletCreator) 2).holdings.find?
        (fun h => h.coinId = trimStr coinOneId) = some holdingStOne ∧
      0 < holdingStOne.amount ∧
      (handleTrade stOne walletCreator coinOneId sellS 1000 2 txU).2
        = Except.ok (coinAfterSell, profAfterSell)) ∧
    (holdingAmt profAfterSell (trimStr coinOneId)
        = some (holdingStOne.amount
            - min holdingStOne.amount (tokensFor coinStOne 1000)) ∧
      0 ≤ holdingStOne.amount
          - min holdingStOne.amount (tokensFor coinStOne 1000) ∧
      profAfterSell.holdings.length
        = (ensureProfileS (lookupA stOne.profiles (trimStr walletCreator))
            (trimStr walletCreator) 2).holdings.length ∧
      getA coinAfterSell.holders (trimStr walletCreator)
        = max 0 (getA coinStOne.holders (trimStr walletCreator)
            - min holdingStOne.amount (tokensFor coinStOne 1000))) := by
  refine ⟨⟨by decide, by decide, by decide, by decide, by decide, by decide,
    by decide, by decide, by decide⟩, ?_⟩
  exact C9_sell_mechanics_amended stOne walletCreator coinOneId sellS 1000 2
    txU coinStOne holdingStOne coinAfterSell profAfterSell (by decide)
    (by decide) (by decide) (by decide) (by decide) (by decide) (by decide)
    (by decide) (by decide)

/-! ## C8 — ath/mc invariant and chart cap -/

theorem creditCreatorReward_ath (st : Store) (coin : Coin) (amt now : ℚ) :
    (creditCreatorReward st coin amt now).2.ath = coin.ath := by
  simp only [creditCreatorReward]
  split <;> rfl

theorem tradePrepare_coin_ath (st : Store) (w : Str) (coin : Coin)
    (sol now : ℚ) :
    (tradePrepare st w coin sol now).2.ath = coin.ath := by
  simp only [tradePrepare]
  exact creditCreatorReward_ath _ _ _ _

def coinC8Id : Str := "COIN-C8".toList

/-- A LIVE coin whose `mc` and `ath` are both 0 (the shape produced by
normalizing a persisted record with those fields absent). -/
def coinC8 : Coin :=
  { id := coinC8Id, name := "C8".toList, symbol := "C8".toList,
    story := [], logo := [], creatorWallet := walletCreator,
    owner := walletCreator, createdAt := 0, status := liveS, mc := 0,
    ath := 0, chart := [0, 0, 0, 0, 0], volumeSol := 0,
    creatorRewardsSol := 0, totalSupply := TOTAL_SUPPLY_DEFAULT,
    holders := [(walletCreator, 5)], lastTradeAt := 0 }

def profC8 : Profile :=
  { wallet := walletCreator,
    holdings := [{ coinId := coinC8Id, symbol := "C8".toList, amount := 5, lastAt := 0 }],
    txs := [], rewards := { totalSol := 0, byCoin := [] },
    referralRewards := { totalSol := 0, byWallet := [] }, referrer := [],
    updatedAt := 0 }

def stC8 : Store :=
  { coins := [coinC8], profiles := [(walletCreator, profC8)], referrals := [],
    treasury := { devSol := 0, reserveSol := 0, updatedAt := 0 }, logs := [] }

def outSellC8 : Store × Except Str (Coin × Profile) :=
  handleTrade stC8 walletCreator coinC8Id sellS 1 3 txU

def coinAfterSellC8 : Coin := (tradeCoin outSellC8.2).getD dummyCoin

/-- C8 counterexample: a successful sell on a LIVE coin with `mc = 0`,
`ath = 0` forces `mc` up to the 1000 floor but never touches `ath`, so
after the operation the stored coin has `ath < mc`. -/
theorem C8_ath_lt_mc_cex :
    isOkTrade outSellC8.2 = true ∧
    outSellC8.1.coins.find? (fun x => x.id = coinC8Id)
      = some coinAfterSellC8 ∧
    coinAfterSellC8.ath < coinAfterSellC8.mc := by
  refine ⟨by decide, by decide, by decide⟩

/-- C8 (amended): after a successful buy the returned (and stored) coin
does satisfy `ath ≥ mc` — the buy branch refreshes
`ath := max(ath, mc)` — and its chart length is at most the 60-entry
cap.  After a successful sell the chart length is likewise capped at
60, but the sell branch never updates `ath` (it equals the pre-trade
value), so `ath ≥ mc` can be violated by a sell. -/
theorem C8_ath_chart_amended :
    (∀ (st : Store) (w c s : Str) (sol now : ℚ) (tu : Str) (coin c2 : Coin)
      (p2 : Profile),
      trimStr w ≠ [] → trimStr c ≠ [] → lowerStr (trimStr s) = buyS →
      0 < sol → findCoin st c = some coin → coin.status = liveS →
      (handleTrade st w c s sol now tu).2 = Except.ok (c2, p2) →
      c2.mc ≤ c2.ath ∧ c2.chart.length ≤ 60) ∧
    (∀ (st : Store) (w c s : Str) (sol now : ℚ) (tu : Str) (coin : Coin)
      (h0 : Holding) (c2 : Coin) (p2 : Profile),
      trimStr w ≠ [] → trimStr c ≠ [] → lowerStr (trimStr s) = sellS →
      0 < sol → findCoin st c = some coin → coin.status = liveS →
      (ensureProfileS (lookupA st.profiles (trimStr w)) (trimStr w)
        now).holdings.find? (fun h => h.coinId = trimStr c) = some h0 →
      0 < h0.amount →
      (handleTrade st w c s sol now tu).2 = Except.ok (c2, p2) →
      c2.chart.length ≤ 60 ∧ c2.ath = coin.ath) := by
  constructor
  · intro st w c s sol now tu coin c2 p2 hw hc hside hsol hfind hlive hok
    rw [handleTrade_buy_eq st w c s sol now tu coin hw hc hside hsol hfind
      hlive] at hok
    simp only [tradeBuy] at hok
    simp only [Except.ok.injEq, Prod.mk.injEq] at hok
    obtain ⟨hc2, hp2⟩ := hok
    subst hc2
    subst hp2
    exact ⟨le_max_right _ _, takeLast_length_le _ _⟩
  · intro st w c s sol now tu coin h0 c2 p2 hw hc hside hsol hfind hlive
      hfound hpos hok
    rw [handleTrade_sell_eq st w c s sol now tu coin hw hc hside hsol hfind
      hlive] at hok
    simp only [tradeSell] at hok
    rw [hfound] at hok
    simp only [] at hok
    rw [if_neg (by
      push_neg
      exact ⟨by simp, hpos⟩)] at hok
    simp only [Except.ok.injEq, Prod.mk.injEq] at hok
    obtain ⟨hc2, hp2⟩ := hok
    subst hc2
    subst hp2
    refine ⟨takeLast_length_le _ _, ?_⟩
    show (tradePrepare (ensureTreasury st now) (trimStr w) coin sol
      now).2.ath = coin.ath
    exact tradePrepare_coin_ath _ _ _ _ _

def outBuyOne : Store × Except Str (Coin × Profile) :=
  handleTrade stOne walletBuyer coinOneId buyS 1 3 txU

def coinAfterBuyOne : Coin := (tradeCoin outBuyOne.2).getD dummyCoin

def profAfterBuyOne : Profile := (tradeProfile outBuyOne.2).getD dummyProfile

/-- Witness for C8's amended theorem: a concrete buy on `stOne`
satisfies `ath ≥ mc` and the chart cap, and the concrete creator sell
keeps the chart cap and the pre-trade `ath`. -/
theorem C8_ath_chart_amended_witness :
    ((handleTrade stOne walletBuyer coinOneId buyS 1 3 txU).2
        = Except.ok (coinAfterBuyOne, profAfterBuyOne) ∧
      coinAfterBuyOne.mc ≤ coinAfterBuyOne.ath ∧
      coinAfterBuyOne.chart.length ≤ 60) ∧
    ((handleTrade stOne walletCreator coinOneId sellS 1000 2 txU).2
        = Except.ok (coinAfterSell, profAfterSell) ∧
      coinAfterSell.chart.length ≤ 60 ∧
      coinAfterSell.ath = coinStOne.ath) := by
  refine ⟨⟨by decide, ?_, ?_⟩, ⟨by decide, ?_, ?_⟩⟩
  · exact (C8_ath_chart_amended.1 stOne walletBuyer coinOneId buyS 1 3 txU
      coinStOne coinAfterBuyOne profAfterBuyOne (by decide) (by decide)
      (by decide) (by decide) (by decide) (by decide) (by decide)).1
  · exact (C8_ath_chart_amended.1 stOne walletBuyer coinOneId buyS 1 3 txU
      coinStOne coinAfterBuyOne profAfterBuyOne (by decide) (by decide)
      (by decide) (by decide) (by decide) (by decide) (by decide)).2
  · exact (C8_ath_chart_amended.2 stOne walletCreator coinOneId sellS 1000 2
      txU coinStOne holdingStOne coinAfterSell profAfterSell (by decide)
      (by decide) (by decide) (by decide) (by decide) (by decide) (by decide)
      (by decide) (by decide)).1
  · exact (C8_ath_chart_amended.2 stOne walletCreator coinOneId sellS 1000 2
      txU coinStOne holdingStOne coinAfterSell profAfterSell (by decide)
      (by decide) (by decide) (by decide) (by decide) (by decide) (by decide)
      (by decide) (by decide)).2

/-! ## C6 — pricing rule -/

theorem mfloor_mono {a b : ℚ} (h : a ≤ b) : mfloor a ≤ mfloor b := by
  simp only [mfloor]
  exact_mod_cast Int.floor_le_floor h

/-- The pricing formula as the specification words it:
`tokens = max(1, floor(sol × totalSupply / max(mc, priceFloor)))` with
price floor 1000 and no inner rounding of the per-unit rate. -/
def claimTokensFor (totalSupply mc sol : ℚ) : ℚ :=
  max 1 (mfloor (sol * (totalSupply / max mc 1000)))

def coinC6Id : Str := "COIN-C6".toList

/-- A LIVE coin with a small supply and an `mc` above the floor, where
the inner floor of `tokensPerSol` is visible. -/
def coinC6 : Coin :=
  { id := coinC6Id, name := "C6".toList, symbol := "C6".toList,
    story := [], logo := [], creatorWallet := walletCreator,
    owner := walletCreator, createdAt := 0, status := liveS, mc := 2000,
    ath := 2000, chart := [], volumeSol := 0,
    creatorRewardsSol := 0, totalSupply := 3000,
    holders := [], lastTradeAt := 0 }

def stC6 : Store :=
  { coins := [coinC6], profiles := [], referrals := [],
    treasury := { devSol := 0, reserveSol := 0, updatedAt := 0 }, logs := [] }

def outBuyC6 : Store × Except Str (Coin × Profile) :=
  handleTrade stC6 walletBuyer coinC6Id buyS 2 3 txU

def coinAfterBuyC6 : Coin := (tradeCoin outBuyC6.2).getD dummyCoin

/-- C6 counterexample: (a) a successful 2-sol buy on a LIVE coin with
`totalSupply = 3000`, `mc = 2000` credits 2 tokens — the code floors
`tokensPerSol = ⌊3000/2000⌋ = 1` first — while the claimed formula
`max(1, ⌊sol·totalSupply/max(mc,1000)⌋)` gives 3; (b) the rule is not
monotonic in `mc`: because `mc = 0` defaults to the 6500 starting
market cap, a coin with `mc = 0` yields FEWER tokens than the same coin
with the higher `mc = 500`. -/
theorem C6_pricing_cex :
    (isOkTrade outBuyC6.2 = true ∧
      getA coinAfterBuyC6.holders (trimStr walletBuyer) = 2 ∧
      claimTokensFor coinC6.totalSupply coinC6.mc 2 = 3) ∧
    ((0 : ℚ) ≤ 500 ∧
      tokensFor { dummyCoin with totalSupply := 1000000000, mc := 0 } 1
        < tokensFor { dummyCoin with totalSupply := 1000000000, mc := 500 } 1) := by
  exact ⟨⟨by decide, by decide, by decide⟩, ⟨by decide, by decide⟩⟩

/-- C6 (amended): the token quantity of a successful buy is
`tokensFor`, i.e. `max(1, ⌊sol · max(1, ⌊totalSupply / max(mc', 1000)⌋)⌋)`
where `mc' = mc` except that `mc = 0` falls back to the 6500 starting
market cap — the per-unit rate is floored and clamped to at least 1
before multiplying, unlike the claimed single-floor formula — and the
rule is monotonic only on positive market caps: for `0 < mc₁ ≤ mc₂`
(same non-negative supply and sol) the higher cap never yields more
tokens. -/
theorem C6_pricing_amended :
    (∀ (coin : Coin) (sol : ℚ),
      tokensFor coin sol
        = max 1 (mfloor (sol * max 1 (mfloor (coin.totalSupply
            / max (numOr coin.mc STARTING_MC_USD) 1000))))) ∧
    (∀ (st : Store) (w c s : Str) (sol now : ℚ) (tu : Str) (coin c2 : Coin)
      (p2 : Profile),
      trimStr w ≠ [] → trimStr c ≠ [] → lowerStr (trimStr s) = buyS →
      0 < sol → findCoin st c = some coin → coin.status = liveS →
      (handleTrade st w c s sol now tu).2 = Except.ok (c2, p2) →
      getA c2.holders (trimStr w)
        = getA coin.holders (trimStr w) + tokensFor coin sol) ∧
    (∀ (ts sol mc1 mc2 : ℚ), 0 < mc1 → mc1 ≤ mc2 → 0 ≤ ts → 0 ≤ sol →
      tokensFor { dummyCoin with totalSupply := ts, mc := mc2 } sol
        ≤ tokensFor { dummyCoin with totalSupply := ts, mc := mc1 } sol) := by
  refine ⟨fun coin sol => rfl, ?_, ?_⟩
  · intro st w c s sol now tu coin c2 p2 hw hc hside hsol hfind hlive hok
    rw [handleTrade_buy_eq st w c s sol now tu coin hw hc hside hsol hfind
      hlive] at hok
    simp only [tradeBuy] at hok
    simp only [Except.ok.injEq, Prod.mk.injEq] at hok
    obtain ⟨hc2, hp2⟩ := hok
    subst hc2
    subst hp2
    show getA (upsertA (tradePrepare (ensureTreasury st now) (trimStr w) coin
      sol now).2.holders (trimStr w) _) (trimStr w) = _
    rw [getA, lookupA_upsertA_self]
    simp only [Option.getD_some]
    rw [tradePrepare_coin_holders, tradePrepare_tokensFor]
  · intro ts sol mc1 mc2 h1 h12 hts hsol
    have h2 : (0 : ℚ) < mc2 := lt_of_lt_of_le h1 h12
    show max 1 (mfloor (sol * max 1 (mfloor (ts
        / max (numOr mc2 STARTING_MC_USD) 1000))))
      ≤ max 1 (mfloor (sol * max 1 (mfloor (ts
        / max (numOr mc1 STARTING_MC_USD) 1000))))
    rw [numOr, numOr, if_neg (ne_of_gt h1), if_neg (ne_of_gt h2)]
    refine max_le_max le_rfl (mfloor_mono ?_)
    refine mul_le_mul_of_nonneg_left (max_le_max le_rfl (mfloor_mono ?_)) hsol
    have hpos : (0 : ℚ) < max mc1 1000 :=
      lt_of_lt_of_le (by norm_num) (le_max_right _ _)
    have hmax : max mc1 1000 ≤ max mc2 1000 := max_le_max h12 le_rfl
    exact div_le_div_of_nonneg_left hts hpos hmax

/-- Witness for C6's amended theorem: the formula identity at a sample
coin, the concrete 1-sol buy on `stOne`, and the monotonicity instance
`mc₁ = 1000 ≤ mc₂ = 2000`. -/
theorem C6_pricing_amended_witness :
    tokensFor coinStOne 1
      = max 1 (mfloor (1 * max 1 (mfloor (coinStOne.totalSupply
          / max (numOr coinStOne.mc STARTING_MC_USD) 1000)))) ∧
    ((handleTrade stOne walletBuyer coinOneId buyS 1 3 txU).2
        = Except.ok (coinAfterBuyOne, profAfterBuyOne) ∧
      getA coinAfterBuyOne.holders (trimStr walletBuyer)
        = getA coinStOne.holders (trimStr walletBuyer)
          + tokensFor coinStOne 1) ∧
    ((0 : ℚ) < 1000 ∧ (1000 : ℚ) ≤ 2000 ∧
      tokensFor { dummyCoin with totalSupply := 1000000000, mc := 2000 } 1
        ≤ tokensFor { dummyCoin with totalSupply := 1000000000, mc := 1000 } 1) := by
  refine ⟨C6_pricing_amended.1 coinStOne 1, ⟨by decide, ?_⟩,
    ⟨by decide, by decide, ?_⟩⟩
  · exact C6_pricing_amended.2.1 stOne walletBuyer coinOneId buyS 1 3 txU
      coinStOne coinAfterBuyOne profAfterBuyOne (by decide) (by decide)
      (by decide) (by decide) (by decide) (by decide) (by decide)
  · exact C6_pricing_amended.2.2 1000000000 1 1000 2000 (by decide)
      (by decide) (by decide) (by decide)

/-! ## C5 — referral immutability -/

theorem setReferral_ok_parts (st : Store) (w r : Str) (now : ℚ)
    (hA : ¬(trimStr w = [] ∨ (trimStr w).length < 20))
    (hB : ¬(trimStr r = [] ∨ (trimStr r).length < 20))
    (hC : trimStr w ≠ trimStr r)
    (hD : ¬(truthyS (lookupA st.referrals (trimStr w)) = true)) :
    lookupA (setReferral st w r now).1.referrals (trimStr w)
        = some (trimStr r) ∧
    (setReferral st w r now).2 = Except.ok () := by
  simp only [setReferral]
  rw [if_neg hA, if_neg hB, if_neg hC, if_neg hD]
  refine ⟨?_, rfl⟩
  show lookupA (upsertA st.referrals (trimStr w) (trimStr r)) (trimStr w) = _
  exact lookupA_upsertA_self _ _ _

theorem tradeBuy_referrals (st : Store) (coin : Coin) (p : Profile)
    (w cid : Str) (sol now : ℚ) (tu : Str) :
    (tradeBuy st coin p w cid sol now tu).1.referrals = st.referrals := rfl

theorem tradeSell_referrals (st : Store) (coin : Coin) (p : Profile)
    (w cid : Str) (sol now : ℚ) (tu : Str) :
    (tradeSell st coin p w cid sol now tu).1.referrals = st.referrals := by
  simp only [tradeSell]
  split <;> rfl

theorem handleTrade_referrals (st : Store) (w c s : Str) (sol now : ℚ)
    (tu : Str) : (handleTrade st w c s sol now tu).1.referrals
      = st.referrals := by
  simp only [handleTrade]
  split
  · rfl
  split
  · rfl
  split
  · rfl
  split
  · rfl
  split
  · rw [tradeBuy_referrals, tradePrepare_referrals]
    rfl
  · rw [tradeSell_referrals, tradePrepare_referrals]
    rfl

theorem createCoin_referrals (st : Store) (n sy so lo : Str) (isol : ℚ)
    (cw : Str) (now : ℚ) (cu tu : Str) :
    (createCoin st n sy so lo isol cw now cu tu).1.referrals
      = st.referrals := by
  simp only [createCoin]
  split
  · rfl
  · simp only [apply_ite Store.referrals, logPush,
      creditReferralReward_referrals, ensureTreasury, ite_self]
    split <;> split <;> rfl

theorem handleWithdraw_referrals (st : Store) (w t k m : Str) (now : ℚ)
    (tu : Str) : (handleWithdraw st w t k m now tu).1.referrals
      = st.referrals := by
  simp only [handleWithdraw]
  split
  · rfl
  split
  · rfl
  · rfl

theorem getProfile_referrals (st : Store) (w : Str) (now : ℚ) :
    (getProfile st w now).1.referrals = st.referrals := rfl

/-- C5 counterexample: the wallet `"SHORTY"` is non-empty, distinct
from its (valid, long) referrer, and has no existing referral edge —
none of the claim's rejection conditions applies — yet `set-referral`
rejects it, because the code also requires both addresses to be at
least 20 characters long. -/
theorem C5_short_wallet_rejected_cex :
    trimStr "SHORTY".toList ≠ [] ∧ trimStr walletRef ≠ [] ∧
    trimStr "SHORTY".toList ≠ trimStr walletRef ∧
    lookupA (defaultStore 0).referrals (trimStr "SHORTY".toList) = none ∧
    (setReferral (defaultStore 0) "SHORTY".toList walletRef 1).2
      = Except.error errWalletRequired := by
  refine ⟨by decide, by decide, by decide, by decide, by decide⟩

/-- C5 (amended): `set-referral` succeeds exactly when BOTH trimmed
addresses are at least 20 characters long (not merely non-empty), the
wallet differs from the referrer, and no truthy edge exists for the
wallet; success stores the edge; once a truthy edge exists, every
later call leaves the store unchanged and — when the other validations
pass — fails with the immutability error; a successful set for a
different wallet never touches this wallet's edge, and the trade,
coin-create, withdraw and get-profile handlers never change the
referral map at all. -/
theorem C5_referral_amended :
    (∀ (st : Store) (w r : Str) (now : ℚ),
      (setReferral st w r now).2 = Except.ok ()
        ↔ (20 ≤ (trimStr w).length ∧ 20 ≤ (trimStr r).length ∧
            trimStr w ≠ trimStr r ∧
            truthyS (lookupA st.referrals (trimStr w)) = false)) ∧
    (∀ (st : Store) (w r : Str) (now : ℚ),
      (setReferral st w r now).2 = Except.ok () →
      lookupA (setReferral st w r now).1.referrals (trimStr w)
        = some (trimStr r)) ∧
    (∀ (st : Store) (w r : Str) (now : ℚ),
      truthyS (lookupA st.referrals (trimStr w)) = true →
      (setReferral st w r now).1 = st ∧
      (20 ≤ (trimStr w).length → 20 ≤ (trimStr r).length →
        trimStr w ≠ trimStr r →
        (setReferral st w r now).2 = Except.error errImmutable)) ∧
    (∀ (st : Store) (w2 r2 : Str) (now : ℚ) (w : Str),
      w ≠ trimStr w2 →
      lookupA (setReferral st w2 r2 now).1.referrals w
        = lookupA st.referrals w) ∧
    (∀ (st : Store) (w c s : Str) (sol now : ℚ) (tu : Str),
      (handleTrade st w c s sol now tu).1.referrals = st.referrals) ∧
    (∀ (st : Store) (n sy so lo : Str) (isol : ℚ) (cw : Str) (now : ℚ)
      (cu tu : Str),
      (createCoin st n sy so lo isol cw now cu tu).1.referrals
        = st.referrals) ∧
    (∀ (st : Store) (w t k m : Str) (now : ℚ) (tu : Str),
      (handleWithdraw st w t k m now tu).1.referrals = st.referrals) ∧
    (∀ (st : Store) (w : Str) (now : ℚ),
      (getProfile st w now).1.referrals = st.referrals) := by
  refine ⟨?_, ?_, ?_, ?_, handleTrade_referrals, createCoin_referrals,
    handleWithdraw_referrals, getProfile_referrals⟩
  · intro st w r now
    constructor
    · intro hok
      simp only [setReferral] at hok
      split at hok
      · simp at hok
      split at hok
      · simp at hok
      split at hok
      · simp at hok
      split at hok
      · simp at hok
      · rename_i hA hB hC hD
        push_neg at hA hB
        refine ⟨by omega, by omega, hC, by simpa using hD⟩
    · rintro ⟨h1, h2, h3, h4⟩
      refine (setReferral_ok_parts st w r now ?_ ?_ h3 (by simp [h4])).2
      · push_neg
        refine ⟨?_, by omega⟩
        intro he
        rw [he] at h1
        simp at h1
      · push_neg
        refine ⟨?_, by omega⟩
        intro he
        rw [he] at h2
        simp at h2
  · intro st w r now hok
    simp only [setReferral] at hok
    split at hok
    · simp at hok
    split at hok
    · simp at hok
    split at hok
    · simp at hok
    split at hok
    · simp at hok
    · rename_i hA hB hC hD
      exact (setReferral_ok_parts st w r now hA hB hC hD).1
  · intro st w r now ht
    constructor
    · simp only [setReferral]
      split
      · rfl
      split
      · rfl
      split
      · rfl
      rfl
    · intro h1 h2 h3
      simp only [setReferral]
      rw [if_neg (by push_neg; exact ⟨by intro he; rw [he] at h1; simp at h1,
        by omega⟩)]
      rw [if_neg (by push_neg; exact ⟨by intro he; rw [he] at h2; simp at h2,
        by omega⟩)]
      rw [if_neg h3, if_pos ht]
  · intro st w2 r2 now w hw
    simp only [setReferral]
    split
    · rfl
    split
    · rfl
    split
    · rfl
    split
    · rfl
    · show lookupA (upsertA st.referrals (trimStr w2) (trimStr r2)) w = _
      exact lookupA_upsertA_ne _ _ _ _ hw

/-- The store after binding `walletBuyer`'s referrer to `walletRef`. -/
def stRef : Store := (setReferral (defaultStore 0) walletBuyer walletRef 1).1

/-- Witness for C5's amended theorem: the concrete first and second
`set-referral` calls for `walletBuyer`, a set for a different wallet,
and the trade handler's referral frame on `stOne`. -/
theorem C5_referral_amended_witness :
    ((setReferral (defaultStore 0) walletBuyer walletRef 1).2
        = Except.ok ()
      ↔ (20 ≤ (trimStr walletBuyer).length ∧
          20 ≤ (trimStr walletRef).length ∧
          trimStr walletBuyer ≠ trimStr walletRef ∧
          truthyS (lookupA (defaultStore 0).referrals (trimStr walletBuyer))
            = false)) ∧
    ((setReferral (defaultStore 0) walletBuyer walletRef 1).2
        = Except.ok () ∧
      lookupA stRef.referrals (trimStr walletBuyer)
        = some (trimStr walletRef)) ∧
    (truthyS (lookupA stRef.referrals (trimStr walletBuyer)) = true ∧
      (setReferral stRef walletBuyer walletCreator 2).1 = stRef ∧
      (setReferral stRef walletBuyer walletCreator 2).2
        = Except.error errImmutable) ∧
    (walletBuyer ≠ trimStr walletCreator ∧
      lookupA (setReferral stRef walletCreator walletRef 3).1.referrals
          walletBuyer
        = lookupA stRef.referrals walletBuyer) ∧
    (handleTrade stOne walletBuyer coinOneId buyS 1 3 txU).1.referrals
      = stOne.referrals := by
  refine ⟨C5_referral_amended.1 (defaultStore 0) walletBuyer walletRef 1,
    ⟨by decide, ?_⟩, ⟨by decide, ?_, ?_⟩, ⟨by decide, ?_⟩, ?_⟩
  · exact C5_referral_amended.2.1 (defaultStore 0) walletBuyer walletRef 1
      (by decide)
  · exact (C5_referral_amended.2.2.1 stRef walletBuyer walletCreator 2
      (by decide)).1
  · exact (C5_referral_amended.2.2.1 stRef walletBuyer walletCreator 2
      (by decide)).2 (by decide) (by decide) (by decide)
  · exact C5_referral_amended.2.2.2.1 stRef walletCreator walletRef 3
      walletBuyer (by decide)
  · exact C5_referral_amended.2.2.2.2.1 stOne walletBuyer coinOneId buyS 1 3
      txU

/-! ## C4 — withdraw semantics -/

theorem logPush_profiles (st : Store) (e : LogEntry) (now : ℚ) :
    (logPush st e now).profiles = st.profiles := rfl

theorem ensureProfileS_some_rewards (p : Profile) (w : Str) (now : ℚ) :
    (ensureProfileS (some p) w now).rewards = p.rewards := rfl

theorem ensureProfileS_some_refRewards (p : Profile) (w : Str) (now : ℚ) :
    (ensureProfileS (some p) w now).referralRewards = p.referralRewards := rfl

/-- C4: `handleWithdraw` with kind `CREATOR` (resp. `REF`) returns the
pre-withdrawal accumulated total of the creator (resp. referral)
bucket, resets that bucket — `totalSol` and its per-key map — to zero
while leaving the other bucket untouched, and records a withdrawal
transaction carrying the pre-zero amount; hence a second immediate
withdrawal of the same kind (the bucket now holding zero) succeeds and
returns zero, and a zero balance withdraws as zero.  Any other kind
(the manual route) returns zero, leaves both reward buckets unchanged,
and still records the accounting transaction. -/
theorem C4_withdraw_correct :
    (∀ (st : Store) (w t k m : Str) (now : ℚ) (tu : Str) (p0 : Profile),
      trimStr w ≠ [] → trimStr t ≠ [] →
      upperStr (trimStr (strOrS k m)) = creatorKindS →
      p0 = ensureProfileS (lookupA st.profiles (trimStr w)) (trimStr w) now →
      (handleWithdraw st w t k m now tu).2
        = Except.ok p0.rewards.totalSol ∧
      (lookupA (handleWithdraw st w t k m now tu).1.profiles
          (trimStr w)).map Profile.rewards
        = some { totalSol := 0, byCoin := [] } ∧
      (lookupA (handleWithdraw st w t k m now tu).1.profiles
          (trimStr w)).map Profile.referralRewards
        = some p0.referralRewards ∧
      (lookupA (handleWithdraw st w t k m now tu).1.profiles
          (trimStr w)).map Profile.txs
        = some ({ id := tu, t := now, coinId := [], side := withdrawTxS,
                    sol := p0.rewards.totalSol, tokens := none,
                    feeSol := none, toW := some (trimStr t),
                    kind := some creatorKindS } :: p0.txs)) ∧
    (∀ (st : Store) (w t k m : Str) (now : ℚ) (tu : Str) (p0 : Profile),
      trimStr w ≠ [] → trimStr t ≠ [] →
      upperStr (trimStr (strOrS k m)) = refKindS →
      p0 = ensureProfileS (lookupA st.profiles (trimStr w)) (trimStr w) now →
      (handleWithdraw st w t k m now tu).2
        = Except.ok p0.referralRewards.totalSol ∧
      (lookupA (handleWithdraw st w t k m now tu).1.profiles
          (trimStr w)).map Profile.referralRewards
        = some { totalSol := 0, byWallet := [] } ∧
      (lookupA (handleWithdraw st w t k m now tu).1.profiles
          (trimStr w)).map Profile.rewards = some p0.rewards ∧
      (lookupA (handleWithdraw st w t k m now tu).1.profiles
          (trimStr w)).map Profile.txs
        = some ({ id := tu, t := now, coinId := [], side := withdrawTxS,
                    sol := p0.referralRewards.totalSol, tokens := none,
                    feeSol := none, toW := some (trimStr t),
                    kind := some refKindS } :: p0.txs)) ∧
    (∀ (st : Store) (w t k m : Str) (now : ℚ) (tu : Str) (p0 : Profile),
      trimStr w ≠ [] → trimStr t ≠ [] →
      upperStr (trimStr (strOrS k m)) ≠ creatorKindS →
      upperStr (trimStr (strOrS k m)) ≠ refKindS →
      p0 = ensureProfileS (lookupA st.profiles (trimStr w)) (trimStr w) now →
      (handleWithdraw st w t k m now tu).2 = Except.ok 0 ∧
      (lookupA (handleWithdraw st w t k m now tu).1.profiles
          (trimStr w)).map Profile.rewards = some p0.rewards ∧
      (lookupA (handleWithdraw st w t k m now tu).1.profiles
          (trimStr w)).map Profile.referralRewards
        = some p0.referralRewards ∧
      (lookupA (handleWithdraw st w t k m now tu).1.profiles
          (trimStr w)).map Profile.txs
        = some ({ id := tu, t := now, coinId := [], side := withdrawTxS,
                    sol := 0, tokens := none, feeSol := none,
                    toW := some (trimStr t),
                    kind := some (upperStr (trimStr (strOrS k m))) }
          :: p0.txs)) ∧
    (∀ (st : Store) (w t k m : Str) (now : ℚ) (tu : Str) (p : Profile),
      trimStr w ≠ [] → trimStr t ≠ [] →
      upperStr (trimStr (strOrS k m)) = creatorKindS →
      lookupA st.profiles (trimStr w) = some p →
      p.rewards.totalSol = 0 →
      (handleWithdraw st w t k m now tu).2 = Except.ok 0) ∧
    (∀ (st : Store) (w t k m : Str) (now : ℚ) (tu : Str) (p : Profile),
      trimStr w ≠ [] → trimStr t ≠ [] →
      upperStr (trimStr (strOrS k m)) = refKindS →
      lookupA st.profiles (trimStr w) = some p →
      p.referralRewards.totalSol = 0 →
      (handleWithdraw st w t k m now tu).2 = Except.ok 0) := by
  refine ⟨?_, ?_, ?_, ?_, ?_⟩
  · intro st w t k m now tu p0 hw ht hk hp0
    subst hp0
    refine ⟨?_, ?_, ?_, ?_⟩ <;>
      simp only [handleWithdraw] <;>
      rw [if_neg hw, if_neg ht, hk,
        if_pos (rfl : creatorKindS = creatorKindS),
        if_pos (rfl : creatorKindS = creatorKindS)] <;>
      simp only [logPush_profiles] <;>
      first
        | rfl
        | (rw [lookupA_upsertA_self]; rfl)
  · intro st w t k m now tu p0 hw ht hk hp0
    subst hp0
    refine ⟨?_, ?_, ?_, ?_⟩ <;>
      simp only [handleWithdraw] <;>
      rw [if_neg hw, if_neg ht, hk,
        if_neg (show ¬(refKindS = creatorKindS) by decide),
        if_neg (show ¬(refKindS = creatorKindS) by decide),
        if_pos (rfl : refKindS = refKindS),
        if_pos (rfl : refKindS = refKindS)] <;>
      simp only [logPush_profiles] <;>
      first
        | rfl
        | (rw [lookupA_upsertA_self]; rfl)
  · intro st w t k m now tu p0 hw ht hk1 hk2 hp0
    subst hp0
    refine ⟨?_, ?_, ?_, ?_⟩ <;>
      simp only [handleWithdraw] <;>
      rw [if_neg hw, if_neg ht, if_neg hk1, if_neg hk1, if_neg hk2,
        if_neg hk2] <;>
      simp only [logPush_profiles] <;>
      first
        | rfl
        | (rw [lookupA_upsertA_self]; rfl)
  · intro st w t k m now tu p hw ht hk hp hzero
    simp only [handleWithdraw]
    rw [if_neg hw, if_neg ht, hk,
      if_pos (rfl : creatorKindS = creatorKindS),
      if_pos (rfl : creatorKindS = creatorKindS), hp,
      ensureProfileS_some_rewards, hzero]
  · intro st w t k m now tu p hw ht hk hp hzero
    simp only [handleWithdraw]
    rw [if_neg hw, if_neg ht, hk,
      if_neg (show ¬(refKindS = creatorKindS) by decide),
      if_neg (show ¬(refKindS = creatorKindS) by decide),
      if_pos (rfl : refKindS = refKindS),
      if_pos (rfl : refKindS = refKindS), hp,
      ensureProfileS_some_refRewards, hzero]

/-- A profile holding accumulated creator and referral rewards. -/
def profWd : Profile :=
  { wallet := walletCreator, holdings := [], txs := [],
    rewards := { totalSol := 5, byCoin := [(coinOneId, 5)] },
    referralRewards := { totalSol := 7, byWallet := [(walletBuyer, 7)] },
    referrer := [], updatedAt := 0 }

def stWd : Store :=
  { coins := [], profiles := [(walletCreator, profWd)], referrals := [],
    treasury := { devSol := 0, reserveSol := 0, updatedAt := 0 }, logs := [] }

def profWdN : Profile :=
  ensureProfileS (lookupA stWd.profiles (trimStr walletCreator))
    (trimStr walletCreator) 4

def stWdAfter : Store :=
  (handleWithdraw stWd walletCreator walletRef [] creatorKindS 4 txU).1

def profWdAfter : Profile :=
  (lookupA stWdAfter.profiles (trimStr walletCreator)).getD dummyProfile

/-- Witness for C4 at concrete withdrawals on `stWd` (rewards 5 sol,
referral rewards 7 sol): the creator withdrawal returns 5 and zeroes
the creator bucket, the referral withdrawal returns 7 and zeroes the
referral bucket, a manual withdrawal returns 0 and leaves the creator
bucket untouched, and a second creator withdrawal on the post-state
returns 0. -/
theorem C4_withdraw_correct_witness :
    (trimStr walletCreator ≠ [] ∧ trimStr walletRef ≠ [] ∧
      upperStr (trimStr (strOrS [] creatorKindS)) = creatorKindS ∧
      profWdN = ensureProfileS (lookupA stWd.profiles (trimStr walletCreator))
        (trimStr walletCreator) 4) ∧
    ((handleWithdraw stWd walletCreator walletRef [] creatorKindS 4 txU).2
        = Except.ok profWdN.rewards.totalSol ∧
      (lookupA stWdAfter.profiles (trimStr walletCreator)).map
          Profile.rewards = some { totalSol := 0, byCoin := [] }) ∧
    ((handleWithdraw stWd walletCreator walletRef [] refKindS 4 txU).2
        = Except.ok profWdN.referralRewards.totalSol ∧
      (lookupA (handleWithdraw stWd walletCreator walletRef [] refKindS 4
            txU).1.profiles (trimStr walletCreator)).map
          Profile.referralRewards
        = some { totalSol := 0, byWallet := [] }) ∧
    ((handleWithdraw stWd walletCreator walletRef [] manualKindS 4 txU).2
        = Except.ok 0 ∧
      (lookupA (handleWithdraw stWd walletCreator walletRef [] manualKindS 4
            txU).1.profiles (trimStr walletCreator)).map Profile.rewards
        = some profWdN.rewards) ∧
    (lookupA stWdAfter.profiles (trimStr walletCreator) = some profWdAfter ∧
      profWdAfter.rewards.totalSol = 0 ∧
      (handleWithdraw stWdAfter walletCreator walletRef [] creatorKindS 5
          txU).2 = Except.ok 0) := by
  refine ⟨⟨by decide, by decide, by decide, by decide⟩, ⟨?_, ?_⟩, ⟨?_, ?_⟩,
    ⟨?_, ?_⟩, ⟨by decide, by decide, ?_⟩⟩
  · exact (C4_withdraw_correct.1 stWd walletCreator walletRef [] creatorKindS
      4 txU profWdN (by decide) (by decide) (by decide) (by decide)).1
  · exact (C4_withdraw_correct.1 stWd walletCreator walletRef [] creatorKindS
      4 txU profWdN (by decide) (by decide) (by decide) (by decide)).2.1
  · exact (C4_withdraw_correct.2.1 stWd walletCreator walletRef [] refKindS
      4 txU profWdN (by decide) (by decide) (by decide) (by decide)).1
  · exact (C4_withdraw_correct.2.1 stWd walletCreator walletRef [] refKindS
      4 txU profWdN (by decide) (by decide) (by decide) (by decide)).2.1
  · exact (C4_withdraw_correct.2.2.1 stWd walletCreator walletRef []
      manualKindS 4 txU profWdN (by decide) (by decide) (by decide)
      (by decide) (by decide)).1
  · exact (C4_withdraw_correct.2.2.1 stWd walletCreator walletRef []
      manualKindS 4 txU profWdN (by decide) (by decide) (by decide)
      (by decide) (by decide)).2.1
  · exact C4_withdraw_correct.2.2.2.1 stWdAfter walletCreator walletRef []
      creatorKindS 5 txU profWdAfter (by decide) (by decide) (by decide)
      (by decide) (by decide)

/-! ## C10 — get-profile writes state -/

/-- C10: the get-profile handler, for every wallet string — including
wallets never seen before — writes the freshly normalized profile into
the store under the trimmed wallet key (a read endpoint durably
creates state): the written entry is exactly the returned profile, an
unseen wallet with no referral edge gets the brand-new empty profile
stamped at the current time, every other profile entry is untouched,
coins, referrals, treasury and logs are all unchanged, and the
persisted snapshot (`normalizeStore`, as written by `writeDB`) still
contains the created profile. -/
theorem C10_getProfile_frame :
    (∀ (st : Store) (w : Str) (now : ℚ),
      lookupA (getProfile st w now).1.profiles (trimStr w)
        = some (getProfile st w now).2) ∧
    (∀ (st : Store) (w : Str) (now : ℚ),
      lookupA st.profiles (trimStr w) = none →
      truthyS (lookupA st.referrals (trimStr w)) = false →
      (getProfile st w now).2
        = { wallet := trimStr w, holdings := [], txs := [],
            rewards := { totalSol := 0, byCoin := [] },
            referralRewards := { totalSol := 0, byWallet := [] },
            referrer := [], updatedAt := now }) ∧
    (∀ (st : Store) (w : Str) (now : ℚ) (w2 : Str), w2 ≠ trimStr w →
      lookupA (getProfile st w now).1.profiles w2 = lookupA st.profiles w2) ∧
    (∀ (st : Store) (w : Str) (now : ℚ),
      (getProfile st w now).1.coins = st.coins ∧
      (getProfile st w now).1.referrals = st.referrals ∧
      (getProfile st w now).1.treasury = st.treasury ∧
      (getProfile st w now).1.logs = st.logs) ∧
    (∀ (st : Store) (w : Str) (now now2 : ℚ) (uid : Str),
      lookupA (normalizeStore (getProfile st w now).1 now2 uid).profiles
          (trimStr w)
        = some (getProfile st w now).2) := by
  refine ⟨?_, ?_, ?_, fun st w now => ⟨rfl, rfl, rfl, rfl⟩, ?_⟩
  · intro st w now
    exact lookupA_upsertA_self st.profiles (trimStr w) ((getProfile st w
      now).2)
  · intro st w now hnone hedge
    simp only [getProfile]
    rw [hnone, hedge]
    rw [if_neg (by simp)]
    simp only [ensureProfileS, Option.map_none', ensureProfile,
      Option.none_bind, Option.getD_none, strOrO]
    rw [strOrS_nil_right, trimStr_trimStr]
  · intro st w now w2 hw2
    exact lookupA_upsertA_ne st.profiles (trimStr w) w2 ((getProfile st w
      now).2) hw2
  · intro st w now now2 uid
    exact lookupA_upsertA_self st.profiles (trimStr w) ((getProfile st w
      now).2)

/-- Witness for C10 at a never-seen wallet on `stOne`. -/
theorem C10_getProfile_frame_witness :
    lookupA (getProfile stOne walletRef 9).1.profiles (trimStr walletRef)
      = some (getProfile stOne walletRef 9).2 ∧
    (lookupA stOne.profiles (trimStr walletRef) = none ∧
      truthyS (lookupA stOne.referrals (trimStr walletRef)) = false ∧
      (getProfile stOne walletRef 9).2
        = { wallet := trimStr walletRef, holdings := [], txs := [],
            rewards := { totalSol := 0, byCoin := [] },
            referralRewards := { totalSol := 0, byWallet := [] },
            referrer := [], updatedAt := 9 }) ∧
    (walletCreator ≠ trimStr walletRef ∧
      lookupA (getProfile stOne walletRef 9).1.profiles walletCreator
        = lookupA stOne.profiles walletCreator) ∧
    (getProfile stOne walletRef 9).1.coins = stOne.coins ∧
    lookupA (normalizeStore (getProfile stOne walletRef 9).1 10
        uidU).profiles (trimStr walletRef)
      = some (getProfile stOne walletRef 9).2 := by
  refine ⟨C10_getProfile_frame.1 stOne walletRef 9,
    ⟨by decide, by decide, ?_⟩, ⟨by decide, ?_⟩, ?_, ?_⟩
  · exact C10_getProfile_frame.2.1 stOne walletRef 9 (by decide) (by decide)
  · exact C10_getProfile_frame.2.2.1 stOne walletRef 9 walletCreator
      (by decide)
  · exact (C10_getProfile_frame.2.2.2.1 stOne walletRef 9).1
  · exact C10_getProfile_frame.2.2.2.2 stOne walletRef 9 10 uidU

end FunRun
